import Mathlib

/-!
# Electricity-measuring firmware (ATmega328P): interrupt handlers of `src/main.c`

A shallow embedding of the five interrupt service routines of `main.c` as pure
functions on an explicit machine state.

* 8-bit variables (`uint8_t`) are natural numbers; every increment is written
  with an explicit `% 256`.  The 32-bit stopwatch `capacit_time` uses
  `% 4294967296`.
* `float` variables are rationals (exact arithmetic).  The only operation of
  the program that leaves the rationals is the division by a zero sample in the
  resistance formula, which IEEE arithmetic evaluates to `+inf`; the
  resistance field therefore has the type `ExtRat`.
* Calls into the display, GPIO and ADC libraries are recorded, in program
  order, in the field `trace`.
* Each handler runs to completion (no nested interrupts).
-/

set_option maxRecDepth 100000

namespace Firmware

/-! ## Constants (`#define`s of `main.c`) -/

/-- Number of decimal digits of the measured values (`DEC`). -/
def DEC : Nat := 2

/-- Reference resistor in ohms (`REF_RESISTOR`). -/
def REF_RESISTOR : ℚ := 1000

/-- Reference voltage in volts (`REF_VOLTAGE`). -/
def REF_VOLTAGE : ℚ := 5.0

/-- Sensitivity of the current sensor (`MVPERAMP`). -/
def MVPERAMP : ℚ := 0.185

/-- Offset of the current sensor in millivolts (`ACSOFTSET`). -/
def ACSOFTSET : ℚ := 2500

/-- Pins driven by the capacitance handler. -/
inductive Pin
  | CHARGE_PIN
  | DISCHARGE_PIN
  deriving DecidableEq, Repr

/-! ## Floating-point values that may be infinite -/

/-- A rational or the IEEE value `+inf`. -/
inductive ExtRat
  | fin (q : ℚ)
  | posInf
  deriving DecidableEq

/-- Quotient `a / b` of a positive `a`: `+inf` when the divisor is zero. -/
def ExtRat.ofQuot (a b : ℚ) : ExtRat :=
  if b = 0 then ExtRat.posInf else ExtRat.fin (a / b)

/-- Subtraction of a finite constant. -/
def ExtRat.subQ : ExtRat → ℚ → ExtRat
  | ExtRat.fin q, c => ExtRat.fin (q - c)
  | ExtRat.posInf, _ => ExtRat.posInf

/-- Division by a positive finite constant. -/
def ExtRat.divQ : ExtRat → ℚ → ExtRat
  | ExtRat.fin q, c => ExtRat.fin (q / c)
  | ExtRat.posInf, _ => ExtRat.posInf

/-- Comparison `x < c` with a finite constant. -/
def ExtRat.ltQ : ExtRat → ℚ → Bool
  | ExtRat.fin q, c => decide (q < c)
  | ExtRat.posInf, _ => false

/-- Comparison `x >= c` with a finite constant. -/
def ExtRat.geQ : ExtRat → ℚ → Bool
  | ExtRat.fin q, c => decide (c ≤ q)
  | ExtRat.posInf, _ => true

/-! ## Data model -/

/-- The record `struct Measure_data`. -/
structure Measure_data where
  voltage : ℚ
  current : ℚ
  capacitance : ℚ
  capacit_value : ℚ
  resistance : ExtRat

/-- Calls into the peripheral libraries, in the order the program makes them.
`oled_putnum v w p` is `dtostrf(v, w, p, string); oled_puts(string)` and
`oled_putint n` is `itoa(n, string, 10); oled_puts(string)`, with `n` the
value of the argument before its conversion to `int`. -/
inductive Effect
  | oled_gotoxy (x y : Nat)
  | oled_puts (text : String)
  | oled_putnum (v : ExtRat) (width prec : Nat)
  | oled_putint (n : Nat)
  | oled_display
  | adc_start_conv
  | tim2_ovf_1ms
  | gpio_mode_output (pin : Pin)
  | gpio_mode_input_pullup (pin : Pin)
  | gpio_write_low (pin : Pin)
  | gpio_write_high (pin : Pin)
  | cli
  | sei
  deriving DecidableEq

/-- Program variables and the hardware registers the handlers write. -/
structure State where
  /-- Global `state`: 0 voltage, 1 current, 2 capacitance, 3 resistance,
  anything else automatic rotation. -/
  state : Nat
  /-- Global `butt_down`. -/
  butt_down : Nat
  /-- Global `m_data`. -/
  m_data : Measure_data
  /-- Static `no_of_overflows` of `ISR(TIMER0_OVF_vect)`. -/
  no_of_overflows_T0 : Nat
  /-- Static `no_of_overflows` of `ISR(TIMER1_OVF_vect)`. -/
  no_of_overflows_T1 : Nat
  /-- Static `capacit_time` of `ISR(TIMER2_OVF_vect)` (`uint32_t`). -/
  capacit_time : Nat
  /-- Static `measure_run` of `ISR(TIMER2_OVF_vect)`. -/
  measure_run : Nat
  /-- Static `state_capacit` of `ISR(TIMER2_OVF_vect)`. -/
  state_capacit : Nat
  /-- Static `internal_state` of `ISR(ADC_vect)`. -/
  internal_state : Nat
  /-- Input channel selected in the ADC multiplexer. -/
  adc_channel : Nat
  /-- Overflow-interrupt enable bit of Timer/Counter2. -/
  tim2_ovf_enabled : Bool
  /-- Library calls made so far, oldest first. -/
  trace : List Effect

/-- Append one library call to the trace. -/
def emit (s : State) (e : Effect) : State :=
  { s with trace := s.trace ++ [e] }

/-- State when `main` reaches its idle loop: zero-initialised variables,
multiplexer and Timer/Counter2 interrupt mask at their reset values. -/
def startup : State :=
  { state := 0
    butt_down := 0
    m_data :=
      { voltage := 0, current := 0, capacitance := 0, capacit_value := 0,
        resistance := ExtRat.fin 0 }
    no_of_overflows_T0 := 0
    no_of_overflows_T1 := 0
    capacit_time := 0
    measure_run := 0
    state_capacit := 0
    internal_state := 0
    adc_channel := 0
    tim2_ovf_enabled := false
    trace := [] }

/-! ## Macros of `timer.h` and `adc.h` -/

/-- Modelled from the spec: `adc.h` is not part of the sources; selecting
channel `n` makes `n` the input the next conversions sample
(`selectChannel(n: 0..3)`). -/
def ADC_SELECT_CHANNEL (n : Nat) (s : State) : State :=
  { s with adc_channel := n }

/-- Modelled from the spec: `adc.h` is not part of the sources; the macro
issues one start-conversion request. -/
def ADC_START_CONV (s : State) : State :=
  emit s Effect.adc_start_conv

/-- Modelled from the spec: `timer.h` is not part of the sources; the macro
sets the period of Timer/Counter2 and touches no program variable. -/
def TIM2_OVF_1MS (s : State) : State :=
  emit s Effect.tim2_ovf_1ms

/-- Modelled from the spec: `timer.h` is not part of the sources; the macro
enables the periodic clock of the capacitance handler. -/
def TIM2_OVF_ENABLE (s : State) : State :=
  { s with tim2_ovf_enabled := true }

/-- Modelled from the spec: `timer.h` is not part of the sources; the macro
disables the periodic clock of the capacitance handler. -/
def TIM2_OVF_DISABLE (s : State) : State :=
  { s with tim2_ovf_enabled := false }

/-! ## Display helpers -/

/-- The function `Clean_display_values`. -/
def Clean_display_values (s : State) : State :=
  let s := emit s (Effect.oled_gotoxy 9 4)
  let s := emit s (Effect.oled_puts "     ")
  let s := emit s (Effect.oled_gotoxy 9 5)
  let s := emit s (Effect.oled_puts "       ")
  let s := emit s (Effect.oled_gotoxy 13 4)
  let s := emit s (Effect.oled_puts "        ")
  let s := emit s (Effect.oled_gotoxy 13 5)
  let s := emit s (Effect.oled_puts "        ")
  let s := emit s (Effect.oled_gotoxy 13 6)
  let s := emit s (Effect.oled_puts "        ")
  let s := emit s (Effect.oled_gotoxy 13 7)
  emit s (Effect.oled_puts "        ")

/-- The function `Clean_display_capacit_time`. -/
def Clean_display_capacit_time (s : State) : State :=
  let s := emit s (Effect.oled_gotoxy 9 5)
  emit s (Effect.oled_puts "    ")

/-! ## `ISR(TIMER0_OVF_vect)` -/

/-- Timer/Counter0 overflow: start a conversion on every third overflow. -/
def TIMER0_OVF_vect (s : State) : State :=
  let s := { s with no_of_overflows_T0 := (s.no_of_overflows_T0 + 1) % 256 }
  if s.no_of_overflows_T0 ≥ 3 then
    let s := { s with no_of_overflows_T0 := 0 }
    ADC_START_CONV s
  else s

/-! ## `ISR(TIMER1_OVF_vect)` -/

/-- The `switch (state)` of the Timer/Counter1 handler. -/
def TIMER1_switch (s : State) : State :=
  match s.state with
  | 0 =>
    let s := { s with state := (s.state + 1) % 256 }
    ADC_SELECT_CHANNEL 1 s
  | 1 =>
    let s := TIM2_OVF_1MS s
    let s := TIM2_OVF_ENABLE s
    let s := { s with state := (s.state + 1) % 256 }
    ADC_SELECT_CHANNEL 2 s
  | 2 =>
    let s := TIM2_OVF_DISABLE s
    let s := { s with state := (s.state + 1) % 256 }
    ADC_SELECT_CHANNEL 3 s
  | 3 =>
    let s := TIM2_OVF_1MS s
    let s := TIM2_OVF_ENABLE s
    { s with state := (s.state + 1) % 256 }
  | _ =>
    let s := TIM2_OVF_DISABLE s
    let s := { s with state := 0 }
    ADC_SELECT_CHANNEL 0 s

/-- The block guarded by `butt_down > 0`: one accepted press. -/
def TIMER1_press (s : State) : State :=
  let s := emit s Effect.cli
  let s := { s with no_of_overflows_T1 := 0 }
  let s := { s with butt_down := 0 }
  let s := TIMER1_switch s
  let s := Clean_display_values s
  emit s Effect.sei

/-- Timer/Counter1 overflow: debounce the button and advance the mode. -/
def TIMER1_OVF_vect (s : State) : State :=
  let s := { s with no_of_overflows_T1 := (s.no_of_overflows_T1 + 1) % 256 }
  if s.no_of_overflows_T1 ≥ 12 then
    if s.butt_down > 0 then TIMER1_press s else s
  else s

/-! ## `ISR(INT0_vect)` -/

/-- Rising edge on the button pin. -/
def INT0_vect (s : State) : State :=
  { s with butt_down := (s.butt_down + 1) % 256 }

/-! ## `ISR(TIMER2_OVF_vect)` -/

/-- Timer/Counter2 overflow: charge/discharge protocol of the capacitance
measurement. -/
def TIMER2_OVF_vect (s : State) : State :=
  if s.measure_run ≠ 0 then
    let s := emit s (Effect.oled_gotoxy 9 5)
    let s := emit s (Effect.oled_putint s.capacit_time)
    let s := { s with capacit_time := (s.capacit_time + 1) % 4294967296 }
    if s.m_data.capacit_value > 647 then
      let s := { s with measure_run := 0 }
      let s := { s with m_data :=
        { s.m_data with capacitance := (s.capacit_time : ℚ) * 5.1 - 253.73 } }
      let s := { s with state_capacit := (s.state_capacit + 1) % 256 }
      let s := emit s (Effect.gpio_write_low Pin.CHARGE_PIN)
      Clean_display_capacit_time s
    else s
  else
    match s.state_capacit with
    | 0 =>
      let s := emit s (Effect.gpio_mode_output Pin.DISCHARGE_PIN)
      let s := emit s (Effect.gpio_write_low Pin.DISCHARGE_PIN)
      if s.m_data.capacit_value > 0 then s
      else
        let s := emit s (Effect.gpio_mode_input_pullup Pin.DISCHARGE_PIN)
        { s with state_capacit := 1 }
    | 1 =>
      let s := emit s (Effect.gpio_mode_output Pin.CHARGE_PIN)
      let s := emit s (Effect.gpio_write_high Pin.CHARGE_PIN)
      let s := { s with measure_run := 1 }
      { s with capacit_time := 0 }
    | _ => { s with state_capacit := 0 }

/-! ## `ISR(ADC_vect)` -/

/-- The local `value = ADC*(REF_VOLTAGE/1023)`. -/
def ADC_value (adc : Nat) : ℚ :=
  (adc : ℚ) * (REF_VOLTAGE / 1023)

/-- Voltage branch (`case 0` of both switches). -/
def ADC_voltage (value : ℚ) (s : State) : State :=
  if value < 1.0 then
    let s := { s with m_data := { s.m_data with voltage := value * 1000 } }
    let s := emit s (Effect.oled_gotoxy 13 4)
    let s := emit s (Effect.oled_putnum (ExtRat.fin s.m_data.voltage) 5 0)
    emit s (Effect.oled_puts " mV")
  else
    let s := { s with m_data := { s.m_data with voltage := value } }
    let s := emit s (Effect.oled_gotoxy 14 4)
    let s := emit s (Effect.oled_putnum (ExtRat.fin s.m_data.voltage) 5 DEC)
    emit s (Effect.oled_puts " V")

/-- Current branch (`case 1` of both switches). -/
def ADC_current (value : ℚ) (s : State) : State :=
  let s := { s with m_data :=
    { s.m_data with current := (ACSOFTSET - value * 1000) / MVPERAMP } }
  let s := emit s (Effect.oled_gotoxy 13 5)
  let s := emit s (Effect.oled_putnum (ExtRat.fin s.m_data.current) 5 DEC)
  emit s (Effect.oled_puts " mA")

/-- Capacitance branch (`case 2` of both switches). -/
def ADC_capacitance (adc : Nat) (s : State) : State :=
  let s := { s with m_data := { s.m_data with capacit_value := (adc : ℚ) } }
  let s := emit s (Effect.oled_gotoxy 13 6)
  let s := emit s (Effect.oled_putnum (ExtRat.fin s.m_data.capacitance) 5 0)
  emit s (Effect.oled_puts " uF")

/-- The assignment `m_data.resistance = ((REF_RESISTOR*REF_VOLTAGE)/value)-REF_RESISTOR`. -/
def ADC_resistance_store (value : ℚ) (s : State) : State :=
  { s with m_data := { s.m_data with resistance :=
      (ExtRat.ofQuot (REF_RESISTOR * REF_VOLTAGE) value).subQ REF_RESISTOR } }

/-- Body of the first `if` of both resistance branches: ohms, one decimal. -/
def ADC_put_R (s : State) : State :=
  let s := emit s (Effect.oled_gotoxy 13 7)
  let s := emit s (Effect.oled_putnum s.m_data.resistance 5 (DEC - 1))
  emit s (Effect.oled_puts " R")

/-- Body of the second `if` of both resistance branches: kilohms. -/
def ADC_put_k (s : State) : State :=
  let s := emit s (Effect.oled_gotoxy 13 7)
  let s := emit s (Effect.oled_putnum (s.m_data.resistance.divQ 1000) 5 DEC)
  emit s (Effect.oled_puts " k")

/-- Body of the third `if` of the single-channel resistance branch: the value
divided by 1000000. -/
def ADC_put_M (s : State) : State :=
  let s := emit s (Effect.oled_gotoxy 13 7)
  let s := emit s (Effect.oled_putnum (s.m_data.resistance.divQ 1000000) 5 DEC)
  emit s (Effect.oled_puts " M")

/-- Body of the final `else` of the automatic resistance branch: the value
itself. -/
def ADC_put_M_auto (s : State) : State :=
  let s := emit s (Effect.oled_gotoxy 13 7)
  let s := emit s (Effect.oled_putnum s.m_data.resistance 5 DEC)
  emit s (Effect.oled_puts " M")

/-- First `if` of `case 3`: `m_data.resistance < 1000`. -/
def ADC_if_R (s : State) : State :=
  if s.m_data.resistance.ltQ 1000 then ADC_put_R s else s

/-- Second `if` of `case 3`:
`m_data.resistance >= 1000 && m_data.resistance/1000 < 1000`. -/
def ADC_if_k (s : State) : State :=
  if s.m_data.resistance.geQ 1000 && (s.m_data.resistance.divQ 1000).ltQ 1000 then
    ADC_put_k s
  else s

/-- Third `if` of `case 3`: `m_data.resistance/1000 >= 1000`. -/
def ADC_if_M (s : State) : State :=
  if (s.m_data.resistance.divQ 1000).geQ 1000 then ADC_put_M s else s

/-- Resistance branch of the single-channel switch (`case 3`): the assignment
and three independent `if`s, in program order. -/
def ADC_resistance_single (value : ℚ) (s : State) : State :=
  let s := ADC_resistance_store value s
  let s := ADC_if_R s
  let s := ADC_if_k s
  ADC_if_M s

/-- Resistance branch of the automatic switch (`default`): `if` / `else if` /
`else`. -/
def ADC_resistance_auto (value : ℚ) (s : State) : State :=
  let s := ADC_resistance_store value s
  if s.m_data.resistance.ltQ 1000 then ADC_put_R s
  else if s.m_data.resistance.geQ 1000 && (s.m_data.resistance.divQ 1000).ltQ 1000 then
    ADC_put_k s
  else ADC_put_M_auto s

/-- The inner `switch (internal_state)` of the automatic mode. -/
def ADC_auto (adc : Nat) (value : ℚ) (s : State) : State :=
  match s.internal_state with
  | 0 =>
    let s := ADC_voltage value s
    let s := { s with internal_state := 1 }
    ADC_SELECT_CHANNEL 1 s
  | 1 =>
    let s := ADC_current value s
    let s := { s with internal_state := 2 }
    ADC_SELECT_CHANNEL 2 s
  | 2 =>
    let s := ADC_capacitance adc s
    let s := { s with internal_state := 3 }
    ADC_SELECT_CHANNEL 3 s
  | _ =>
    let s := ADC_resistance_auto value s
    let s := { s with internal_state := 0 }
    ADC_SELECT_CHANNEL 0 s

/-- Conversion complete; `adc` is the content of the ADC data register. -/
def ADC_vect (adc : Nat) (s : State) : State :=
  let value := ADC_value adc
  let s :=
    match s.state with
    | 0 => ADC_voltage value s
    | 1 => ADC_current value s
    | 2 => ADC_capacitance adc s
    | 3 => ADC_resistance_single value s
    | _ => ADC_auto adc value s
  emit s Effect.oled_display

/-! ## Executions -/

/-- Interrupt requests reaching the processor. -/
inductive Event
  | TIMER0_OVF
  | TIMER1_OVF
  | TIMER2_OVF
  | INT0
  | ADC (sample : Nat)
  deriving DecidableEq

/-- Serve one interrupt request.  The Timer/Counter2 overflow is served only
while its interrupt is enabled. -/
def step (s : State) : Event → State
  | Event.TIMER0_OVF => TIMER0_OVF_vect s
  | Event.TIMER1_OVF => TIMER1_OVF_vect s
  | Event.TIMER2_OVF => if s.tim2_ovf_enabled then TIMER2_OVF_vect s else s
  | Event.INT0 => INT0_vect s
  | Event.ADC sample => ADC_vect sample s

/-- Serve a sequence of interrupt requests, oldest first. -/
def run (s : State) (evs : List Event) : State :=
  evs.foldl step s

/-- Number of requests of the sequence at which `state` changes. -/
def transitions : State → List Event → Nat
  | _, [] => 0
  | s, e :: evs =>
    (if (step s e).state ≠ s.state then 1 else 0) + transitions (step s e) evs

/-- One rising edge followed by a debounce window of twelve ticks. -/
def pressEvents : List Event :=
  Event.INT0 :: List.replicate 12 Event.TIMER1_OVF

/-- Successor of a mode in the `switch (state)` of the Timer/Counter1
handler. -/
def next_state : Nat → Nat
  | 0 => 1
  | 1 => 2
  | 2 => 3
  | 3 => 4
  | _ => 0

/-- The events of `k` presses in a row. -/
def presses (k : Nat) : List Event :=
  (List.replicate k pressEvents).flatten

/-- The Timer/Counter1 overflow served in `s` passes both tests of the
handler: the incremented tick counter is at least 12 and `butt_down > 0`. -/
def accepts (s : State) : Prop :=
  12 ≤ (s.no_of_overflows_T1 + 1) % 256 ∧ 0 < s.butt_down

instance (s : State) : Decidable (accepts s) := by
  unfold accepts
  infer_instance

/-- Number of Timer/Counter1 overflows served since `state` last changed
(since the beginning when it never did); `n` is that number before `evs`. -/
def ticksSinceTransition : State → Nat → List Event → Nat
  | _, n, [] => n
  | s, n, e :: evs =>
    ticksSinceTransition (step s e)
      (if (step s e).state ≠ s.state then 0
       else if e = Event.TIMER1_OVF then n + 1 else n) evs

/-- A state in the current mode, a press pending and the debounce window
over, in which an earlier capacitance measurement is still in progress. -/
def busyInCurrentMode : State :=
  { startup with
    state := 1
    butt_down := 1
    no_of_overflows_T1 := 11
    state_capacit := 1
    capacit_time := 57
    measure_run := 1 }

/-- One Timer/Counter2 overflow that finds the raw sample `raw` in
`m_data.capacit_value`, where the conversion handler stores it. -/
def TIMER2_with_sample (raw : Nat) (s : State) : State :=
  TIMER2_OVF_vect { s with m_data := { s.m_data with capacit_value := (raw : ℚ) } }

/-- Consecutive Timer/Counter2 overflows, one for each raw sample of the
list. -/
def TIMER2_ticks (s : State) (raws : List Nat) : State :=
  raws.foldl (fun t raw => TIMER2_with_sample raw t) s

/-- The `if` / `else if` / `else` chain of the automatic resistance branch,
i.e. `ADC_resistance_auto` after its assignment. -/
def ADC_auto_chain (s : State) : State :=
  if s.m_data.resistance.ltQ 1000 then ADC_put_R s
  else if s.m_data.resistance.geQ 1000 && (s.m_data.resistance.divQ 1000).ltQ 1000 then
    ADC_put_k s
  else ADC_put_M_auto s

/-- The three `if`s of the single-channel resistance branch, i.e.
`ADC_resistance_single` after its assignment. -/
def ADC_single_chain (s : State) : State :=
  ADC_if_M (ADC_if_k (ADC_if_R s))

/-- Display band of a resistance in the words of the specification: ohms
below 1000, kilohms from 1000 on, megohms from 1000000 on. -/
def band_spec : ExtRat → String
  | ExtRat.fin q => if q < 1000 then " R" else if q < 1000000 then " k" else " M"
  | ExtRat.posInf => " M"

/-- The state `s` put into the single-channel mode `q`. -/
def singleMode (q : Nat) (s : State) : State :=
  { s with state := q }

/-- The state `s` put into the automatic mode with `internal_state = q`. -/
def autoMode (q : Nat) (s : State) : State :=
  { s with
    state := 4
    internal_state := q }

/-- Successor of a sub-state in the `switch (internal_state)` of the
conversion handler. -/
def next_internal : Nat → Nat
  | 0 => 1
  | 1 => 2
  | 2 => 3
  | _ => 0

/-- Consecutive conversion-complete events: for each one, the channel that was
selected while its sample was converted (the handler changes the channel only
after it has processed the sample) paired with the sub-state under which the
handler processes the sample. -/
def conversions : State → List Nat → List (Nat × Nat)
  | _, [] => []
  | s, r :: rs => (s.adc_channel, s.internal_state) :: conversions (ADC_vect r s) rs

/-- Consecutive conversion-complete events, one for each raw sample. -/
def ADC_run (s : State) (rs : List Nat) : State :=
  rs.foldl (fun t r => ADC_vect r t) s

/-- Number of start-conversion requests issued so far. -/
def starts (s : State) : Nat :=
  s.trace.count Effect.adc_start_conv

/-- The numbers of the Timer/Counter1 overflows at which `state` changes,
overflows being numbered from `n + 1` on. -/
def transitionTicks : State → Nat → List Event → List Nat
  | _, _, [] => []
  | s, n, e :: evs =>
    if (step s e).state ≠ s.state then
      (if e = Event.TIMER1_OVF then n + 1 else n) ::
        transitionTicks (step s e) (if e = Event.TIMER1_OVF then n + 1 else n) evs
    else
      transitionTicks (step s e) (if e = Event.TIMER1_OVF then n + 1 else n) evs

/-! ## Basic facts about the Timer/Counter1 handler -/

theorem emit_state (s : State) (e : Effect) : (emit s e).state = s.state := rfl

theorem TIMER1_switch_state (s : State) :
    (TIMER1_switch s).state = next_state s.state := by
  unfold TIMER1_switch next_state
  split <;> simp_all [TIM2_OVF_1MS, TIM2_OVF_ENABLE, TIM2_OVF_DISABLE,
    ADC_SELECT_CHANNEL, emit]

theorem TIMER1_press_state (s : State) :
    (TIMER1_press s).state = next_state s.state := by
  simp [TIMER1_press, Clean_display_values, emit, TIMER1_switch_state]

/-! ## C1 -/

/-- C1, as stated, fails: four debounced presses after start-up leave the
firmware in the automatic mode (`state = 4`), not in the voltage mode. -/
theorem mode_cycle_not_closed_in_four :
    (TIMER1_press^[4] startup).state = 4 ∧
    (run startup (presses 4)).state = 4 ∧
    (run startup (presses 4)).state ≠ 0 := by
  refine ⟨?_, ?_, ?_⟩ <;> decide

/-- C1 (amended): from the voltage mode the accepted-press block of the
Timer/Counter1 handler visits current, capacitance, resistance and the
automatic mode, and the fifth press returns to the voltage mode. -/
theorem mode_cycle_closed_in_five (s : State) (h : s.state = 0) :
    (TIMER1_press^[1] s).state = 1 ∧
    (TIMER1_press^[2] s).state = 2 ∧
    (TIMER1_press^[3] s).state = 3 ∧
    (TIMER1_press^[4] s).state = 4 ∧
    (TIMER1_press^[5] s).state = 0 := by
  simp [Function.iterate_succ_apply', TIMER1_press_state, h, next_state]

/-- C1 (amended), at start-up, for the accepted-press block and for five
presses served by the handlers. -/
theorem mode_cycle_closed_in_five_witness :
    startup.state = 0 ∧ (TIMER1_press^[5] startup).state = 0 ∧
    (run startup (presses 5)).state = 0 :=
  ⟨rfl, (mode_cycle_closed_in_five startup rfl).2.2.2.2, by decide⟩

/-! ## The debounce test -/

theorem next_state_ne (n : Nat) : next_state n ≠ n := by
  rcases n with _ | _ | _ | _ | _ | n <;> simp [next_state]

theorem TIMER1_idle (s : State) (h : ¬ accepts s) :
    TIMER1_OVF_vect s =
      { s with no_of_overflows_T1 := (s.no_of_overflows_T1 + 1) % 256 } := by
  unfold accepts at h
  unfold TIMER1_OVF_vect
  by_cases h1 : 12 ≤ (s.no_of_overflows_T1 + 1) % 256
  · have h2 : ¬ 0 < s.butt_down := fun hb => h ⟨h1, hb⟩
    simp [h1, h2]
  · simp [h1]

theorem TIMER1_fire (s : State) (h : accepts s) :
    TIMER1_OVF_vect s =
      TIMER1_press { s with no_of_overflows_T1 := (s.no_of_overflows_T1 + 1) % 256 } := by
  unfold accepts at h
  unfold TIMER1_OVF_vect
  simp [h.1, h.2]

theorem TIMER1_switch_butt_down (s : State) :
    (TIMER1_switch s).butt_down = s.butt_down := by
  unfold TIMER1_switch
  split <;> rfl

theorem TIMER1_switch_overflows (s : State) :
    (TIMER1_switch s).no_of_overflows_T1 = s.no_of_overflows_T1 := by
  unfold TIMER1_switch
  split <;> rfl

theorem TIMER1_fire_state (s : State) (h : accepts s) :
    (TIMER1_OVF_vect s).state = next_state s.state := by
  rw [TIMER1_fire s h, TIMER1_press_state]

theorem TIMER1_fire_butt_down (s : State) (h : accepts s) :
    (TIMER1_OVF_vect s).butt_down = 0 := by
  rw [TIMER1_fire s h]
  simp [TIMER1_press, Clean_display_values, emit, TIMER1_switch_butt_down]

theorem TIMER1_fire_overflows (s : State) (h : accepts s) :
    (TIMER1_OVF_vect s).no_of_overflows_T1 = 0 := by
  rw [TIMER1_fire s h]
  simp [TIMER1_press, Clean_display_values, emit, TIMER1_switch_overflows]

/-- A tick changes `state` exactly when it passes the debounce test. -/
theorem TIMER1_changes_state_iff (s : State) :
    (TIMER1_OVF_vect s).state ≠ s.state ↔ accepts s := by
  by_cases h : accepts s
  · simp [TIMER1_fire_state s h, next_state_ne, h]
  · simp [TIMER1_idle s h, h]

/-- With no edge pending, ticks never change the mode. -/
theorem transitions_ticks_idle (m : Nat) :
    ∀ s : State, s.butt_down = 0 →
      transitions s (List.replicate m Event.TIMER1_OVF) = 0 := by
  induction m with
  | zero => intro s _; rfl
  | succ m ih =>
    intro s hb
    have hna : ¬ accepts s := by
      unfold accepts
      omega
    have hs : step s Event.TIMER1_OVF = TIMER1_OVF_vect s := rfl
    simp only [List.replicate_succ, transitions, hs]
    rw [TIMER1_idle s hna]
    simp only [ne_eq, not_true_eq_false, if_false, Nat.zero_add]
    exact ih _ hb

/-- With an edge pending, the ticks perform exactly one transition as soon as
there are enough of them for the tick counter to reach 12. -/
theorem transitions_ticks_pending (j : Nat) :
    ∀ (s : State) (m : Nat), 0 < s.butt_down →
      12 ≤ (s.no_of_overflows_T1 + 1) % 256 + j → j + 1 ≤ m →
      transitions s (List.replicate m Event.TIMER1_OVF) = 1 := by
  induction j with
  | zero =>
    intro s m hb hc hm
    obtain ⟨m, rfl⟩ : ∃ k, m = k + 1 := ⟨m - 1, by omega⟩
    have ha : accepts s := ⟨by omega, hb⟩
    have hs : step s Event.TIMER1_OVF = TIMER1_OVF_vect s := rfl
    simp only [List.replicate_succ, transitions, hs]
    rw [transitions_ticks_idle m _ (TIMER1_fire_butt_down s ha)]
    simp [TIMER1_fire_state s ha, next_state_ne]
  | succ j ih =>
    intro s m hb hc hm
    obtain ⟨m, rfl⟩ : ∃ k, m = k + 1 := ⟨m - 1, by omega⟩
    have hs : step s Event.TIMER1_OVF = TIMER1_OVF_vect s := rfl
    by_cases ha : accepts s
    · simp only [List.replicate_succ, transitions, hs]
      rw [transitions_ticks_idle m _ (TIMER1_fire_butt_down s ha)]
      simp [TIMER1_fire_state s ha, next_state_ne]
    · have hlt : (s.no_of_overflows_T1 + 1) % 256 < 12 := by
        unfold accepts at ha
        omega
      simp only [List.replicate_succ, transitions, hs]
      rw [TIMER1_idle s ha]
      simp only [ne_eq, not_true_eq_false, if_false, Nat.zero_add]
      apply ih
      · exact hb
      · show 12 ≤ ((s.no_of_overflows_T1 + 1) % 256 + 1) % 256 + j
        omega
      · omega

/-- Edges that arrive while no tick performs a transition accumulate in
`butt_down` modulo 256. -/
theorem butt_down_accumulates (w : List Event) :
    ∀ s : State, s.butt_down < 256 →
      (∀ e ∈ w, e = Event.INT0 ∨ e = Event.TIMER1_OVF) →
      transitions s w = 0 →
      (run s w).butt_down = (s.butt_down + w.count Event.INT0) % 256 := by
  induction w with
  | nil =>
    intro s hb _ _
    simp [run, Nat.mod_eq_of_lt hb]
  | cons e w ih =>
    intro s hb hw hq
    have he := hw e (List.mem_cons_self e w)
    have hw2 : ∀ x ∈ w, x = Event.INT0 ∨ x = Event.TIMER1_OVF :=
      fun x hx => hw x (List.mem_cons_of_mem e hx)
    simp only [transitions] at hq
    have hq2 : transitions (step s e) w = 0 := by omega
    have hrun : run s (e :: w) = run (step s e) w := rfl
    rcases he with rfl | rfl
    · have h1 : (step s Event.INT0).butt_down = (s.butt_down + 1) % 256 := rfl
      rw [hrun, ih _ (by rw [h1]; exact Nat.mod_lt _ (by norm_num)) hw2 hq2, h1]
      simp only [List.count_cons_self]
      omega
    · have hna : ¬ accepts s := by
        intro ha
        have := (TIMER1_changes_state_iff s).2 ha
        have hs : step s Event.TIMER1_OVF = TIMER1_OVF_vect s := rfl
        rw [hs] at hq
        simp [this] at hq
      have hs : step s Event.TIMER1_OVF = TIMER1_OVF_vect s := rfl
      have hbd : (TIMER1_OVF_vect s).butt_down = s.butt_down := by
        rw [TIMER1_idle s hna]
      rw [hs] at hq2
      rw [hrun, hs, ih (TIMER1_OVF_vect s) (by rw [hbd]; exact hb) hw2 hq2, hbd]
      simp

/-! ## C2 -/

/-- C2: edges that arrive in one window, i.e. while no tick performs a
transition, are answered by the following ticks (at least 13, enough for the
tick counter to reach 12 from any value) with exactly one transition when
their number is not a multiple of 256, and with no transition at all when it
is: the 8-bit `butt_down` has wrapped to zero. -/
theorem coalescing_modulo_256 (s : State) (w : List Event) (m : Nat)
    (hb : s.butt_down = 0)
    (hw : ∀ e ∈ w, e = Event.INT0 ∨ e = Event.TIMER1_OVF)
    (hq : transitions s w = 0) (hm : 13 ≤ m) :
    transitions (run s w) (List.replicate m Event.TIMER1_OVF) =
      if w.count Event.INT0 % 256 = 0 then 0 else 1 := by
  have hacc := butt_down_accumulates w s (by omega) hw hq
  rw [hb, Nat.zero_add] at hacc
  by_cases h0 : w.count Event.INT0 % 256 = 0
  · rw [if_pos h0]
    exact transitions_ticks_idle m _ (by rw [hacc, h0])
  · rw [if_neg h0]
    exact transitions_ticks_pending 12 _ m (by rw [hacc]; omega) (by omega) (by omega)

/-- C2 at the failing input: 256 edges after start-up, then 13 ticks, and the
mode has not changed once. -/
theorem coalescing_modulo_256_witness :
    transitions (run startup (List.replicate 256 Event.INT0))
      (List.replicate 13 Event.TIMER1_OVF) = 0 :=
  coalescing_modulo_256 startup (List.replicate 256 Event.INT0) 13 rfl
    (fun e he => Or.inl (List.eq_of_mem_replicate he)) (by decide) (by decide)

/-! ## Runs of idle ticks and of edges -/

theorem run_append (s : State) (u v : List Event) :
    run s (u ++ v) = run (run s u) v := by
  simp [run, List.foldl_append]

theorem run_ticks_idle (n : Nat) :
    ∀ s : State, s.butt_down = 0 → s.no_of_overflows_T1 < 256 →
      run s (List.replicate n Event.TIMER1_OVF) =
        { s with no_of_overflows_T1 := (s.no_of_overflows_T1 + n) % 256 } := by
  induction n with
  | zero =>
    intro s _ hc
    simp [run, Nat.mod_eq_of_lt hc]
  | succ n ih =>
    intro s hb hc
    have hna : ¬ accepts s := by
      unfold accepts
      omega
    have hrun : run s (List.replicate (n + 1) Event.TIMER1_OVF) =
        run (TIMER1_OVF_vect s) (List.replicate n Event.TIMER1_OVF) := rfl
    rw [hrun, TIMER1_idle s hna,
      ih { s with no_of_overflows_T1 := (s.no_of_overflows_T1 + 1) % 256 } hb
        (Nat.mod_lt _ (by norm_num))]
    simp only [State.mk.injEq, and_true, true_and]
    omega

theorem run_edges (k : Nat) :
    ∀ s : State, s.butt_down < 256 →
      run s (List.replicate k Event.INT0) =
        { s with butt_down := (s.butt_down + k) % 256 } := by
  induction k with
  | zero =>
    intro s hb
    simp [run, Nat.mod_eq_of_lt hb]
  | succ k ih =>
    intro s hb
    have hrun : run s (List.replicate (k + 1) Event.INT0) =
        run (INT0_vect s) (List.replicate k Event.INT0) := rfl
    rw [hrun, ih (INT0_vect s) (Nat.mod_lt _ (by norm_num))]
    simp only [INT0_vect, State.mk.injEq, and_true, true_and]
    omega

/-! ## C3 -/

/-- C3: after `n` idle ticks since a transition or start-up and `k` pending
edges (`0 < k < 256`), tick number `n + 1` advances the mode and clears
`butt_down` when `(n + 1) % 256 ≥ 12`, and does neither when
`(n + 1) % 256 < 12`, although `n + 1` ticks have elapsed: the 8-bit tick
counter has wrapped. -/
theorem tick_accepts_iff_wrapped_counter (s : State) (n k : Nat)
    (h0 : s.no_of_overflows_T1 = 0) (hb : s.butt_down = 0)
    (hk : 0 < k) (hk2 : k < 256) :
    (12 ≤ (n + 1) % 256 →
      (run s (List.replicate n Event.TIMER1_OVF ++ List.replicate k Event.INT0 ++
        [Event.TIMER1_OVF])).state = next_state s.state ∧
      (run s (List.replicate n Event.TIMER1_OVF ++ List.replicate k Event.INT0 ++
        [Event.TIMER1_OVF])).butt_down = 0) ∧
    ((n + 1) % 256 < 12 →
      (run s (List.replicate n Event.TIMER1_OVF ++ List.replicate k Event.INT0 ++
        [Event.TIMER1_OVF])).state = s.state ∧
      (run s (List.replicate n Event.TIMER1_OVF ++ List.replicate k Event.INT0 ++
        [Event.TIMER1_OVF])).butt_down = k) := by
  have hlast : ∀ t : State, run t [Event.TIMER1_OVF] = TIMER1_OVF_vect t := fun _ => rfl
  rw [run_append, run_append, hlast, run_ticks_idle n s hb (by omega),
    run_edges k _ (by show s.butt_down < 256; omega)]
  simp only [h0, hb, Nat.zero_add, Nat.mod_eq_of_lt hk2]
  constructor
  · intro h12
    have ha : accepts { s with no_of_overflows_T1 := n % 256, butt_down := k } := by
      unfold accepts
      constructor
      · show 12 ≤ (n % 256 + 1) % 256
        omega
      · exact hk
    exact ⟨TIMER1_fire_state _ ha, TIMER1_fire_butt_down _ ha⟩
  · intro h12
    have hna : ¬ accepts { s with no_of_overflows_T1 := n % 256, butt_down := k } := by
      unfold accepts
      intro h
      have h1 : 12 ≤ (n % 256 + 1) % 256 := h.1
      omega
    rw [TIMER1_idle _ hna]
    exact ⟨rfl, rfl⟩

/-- C3 at the failing input: 255 idle ticks after start-up, one edge, and the
256th tick neither changes the mode nor clears `butt_down`. -/
theorem tick_accepts_iff_wrapped_counter_witness :
    (run startup (List.replicate 255 Event.TIMER1_OVF ++ List.replicate 1 Event.INT0 ++
      [Event.TIMER1_OVF])).state = 0 ∧
    (run startup (List.replicate 255 Event.TIMER1_OVF ++ List.replicate 1 Event.INT0 ++
      [Event.TIMER1_OVF])).butt_down = 1 :=
  (tick_accepts_iff_wrapped_counter startup 255 1 rfl rfl (by decide) (by decide)).2
    (by decide)

/-! ## What the other handlers leave alone -/

theorem ADC_voltage_frame (v : ℚ) (s : State) :
    (ADC_voltage v s).state = s.state ∧
    (ADC_voltage v s).no_of_overflows_T1 = s.no_of_overflows_T1 ∧
    (ADC_voltage v s).tim2_ovf_enabled = s.tim2_ovf_enabled := by
  unfold ADC_voltage
  split <;> exact ⟨rfl, rfl, rfl⟩

theorem ADC_if_R_frame (s : State) :
    (ADC_if_R s).state = s.state ∧
    (ADC_if_R s).no_of_overflows_T1 = s.no_of_overflows_T1 ∧
    (ADC_if_R s).tim2_ovf_enabled = s.tim2_ovf_enabled := by
  unfold ADC_if_R
  split <;> exact ⟨rfl, rfl, rfl⟩

theorem ADC_if_k_frame (s : State) :
    (ADC_if_k s).state = s.state ∧
    (ADC_if_k s).no_of_overflows_T1 = s.no_of_overflows_T1 ∧
    (ADC_if_k s).tim2_ovf_enabled = s.tim2_ovf_enabled := by
  unfold ADC_if_k
  split <;> exact ⟨rfl, rfl, rfl⟩

theorem ADC_if_M_frame (s : State) :
    (ADC_if_M s).state = s.state ∧
    (ADC_if_M s).no_of_overflows_T1 = s.no_of_overflows_T1 ∧
    (ADC_if_M s).tim2_ovf_enabled = s.tim2_ovf_enabled := by
  unfold ADC_if_M
  split <;> exact ⟨rfl, rfl, rfl⟩

theorem ADC_resistance_single_frame (v : ℚ) (s : State) :
    (ADC_resistance_single v s).state = s.state ∧
    (ADC_resistance_single v s).no_of_overflows_T1 = s.no_of_overflows_T1 ∧
    (ADC_resistance_single v s).tim2_ovf_enabled = s.tim2_ovf_enabled := by
  unfold ADC_resistance_single
  simp only []
  have h1 := ADC_if_M_frame (ADC_if_k (ADC_if_R (ADC_resistance_store v s)))
  have h2 := ADC_if_k_frame (ADC_if_R (ADC_resistance_store v s))
  have h3 := ADC_if_R_frame (ADC_resistance_store v s)
  refine ⟨?_, ?_, ?_⟩
  · rw [h1.1, h2.1, h3.1]; rfl
  · rw [h1.2.1, h2.2.1, h3.2.1]; rfl
  · rw [h1.2.2, h2.2.2, h3.2.2]; rfl

theorem ADC_resistance_auto_frame (v : ℚ) (s : State) :
    (ADC_resistance_auto v s).state = s.state ∧
    (ADC_resistance_auto v s).no_of_overflows_T1 = s.no_of_overflows_T1 ∧
    (ADC_resistance_auto v s).tim2_ovf_enabled = s.tim2_ovf_enabled := by
  unfold ADC_resistance_auto
  simp only []
  split
  · exact ⟨rfl, rfl, rfl⟩
  · split <;> exact ⟨rfl, rfl, rfl⟩

theorem ADC_auto_frame (adc : Nat) (v : ℚ) (s : State) :
    (ADC_auto adc v s).state = s.state ∧
    (ADC_auto adc v s).no_of_overflows_T1 = s.no_of_overflows_T1 ∧
    (ADC_auto adc v s).tim2_ovf_enabled = s.tim2_ovf_enabled := by
  unfold ADC_auto
  split
  · exact ADC_voltage_frame v s
  · exact ⟨rfl, rfl, rfl⟩
  · exact ⟨rfl, rfl, rfl⟩
  · exact ADC_resistance_auto_frame v s

theorem ADC_vect_frame (adc : Nat) (s : State) :
    (ADC_vect adc s).state = s.state ∧
    (ADC_vect adc s).no_of_overflows_T1 = s.no_of_overflows_T1 ∧
    (ADC_vect adc s).tim2_ovf_enabled = s.tim2_ovf_enabled := by
  unfold ADC_vect
  simp only [emit]
  split
  · exact ADC_voltage_frame _ s
  · exact ⟨rfl, rfl, rfl⟩
  · exact ⟨rfl, rfl, rfl⟩
  · exact ADC_resistance_single_frame _ s
  · exact ADC_auto_frame adc _ s

theorem TIMER0_frame (s : State) :
    (TIMER0_OVF_vect s).state = s.state ∧
    (TIMER0_OVF_vect s).no_of_overflows_T1 = s.no_of_overflows_T1 ∧
    (TIMER0_OVF_vect s).tim2_ovf_enabled = s.tim2_ovf_enabled := by
  unfold TIMER0_OVF_vect
  simp only []
  split <;> exact ⟨rfl, rfl, rfl⟩

theorem TIMER2_frame (s : State) :
    (TIMER2_OVF_vect s).state = s.state ∧
    (TIMER2_OVF_vect s).no_of_overflows_T1 = s.no_of_overflows_T1 ∧
    (TIMER2_OVF_vect s).tim2_ovf_enabled = s.tim2_ovf_enabled := by
  unfold TIMER2_OVF_vect
  split
  · simp only []
    split <;> exact ⟨rfl, rfl, rfl⟩
  · split
    · simp only []
      split <;> exact ⟨rfl, rfl, rfl⟩
    · exact ⟨rfl, rfl, rfl⟩
    · exact ⟨rfl, rfl, rfl⟩

/-- Only the Timer/Counter1 overflow changes `state`, the tick counter of the
debounce, or the interrupt enable of Timer/Counter2. -/
theorem step_frame (s : State) (e : Event) (he : e ≠ Event.TIMER1_OVF) :
    (step s e).state = s.state ∧
    (step s e).no_of_overflows_T1 = s.no_of_overflows_T1 ∧
    (step s e).tim2_ovf_enabled = s.tim2_ovf_enabled := by
  cases e with
  | TIMER0_OVF => exact TIMER0_frame s
  | TIMER1_OVF => exact absurd rfl he
  | TIMER2_OVF =>
    simp only [step]
    split
    · exact TIMER2_frame s
    · exact ⟨rfl, rfl, rfl⟩
  | INT0 => exact ⟨rfl, rfl, rfl⟩
  | ADC sample => exact ADC_vect_frame sample s

/-! ## C4 -/

/-- The tick counter of the debounce never exceeds the number of ticks since
the last transition. -/
theorem overflows_le_ticksSince (evs : List Event) :
    ∀ (s : State) (n : Nat), s.no_of_overflows_T1 ≤ n →
      (run s evs).no_of_overflows_T1 ≤ ticksSinceTransition s n evs := by
  induction evs with
  | nil => intro s n h; exact h
  | cons e evs ih =>
    intro s n h
    have hrun : run s (e :: evs) = run (step s e) evs := rfl
    rw [hrun]
    simp only [ticksSinceTransition]
    apply ih
    by_cases he : e = Event.TIMER1_OVF
    · subst he
      have hs : step s Event.TIMER1_OVF = TIMER1_OVF_vect s := rfl
      by_cases ha : accepts s
      · rw [hs, TIMER1_fire_overflows s ha]
        exact Nat.zero_le _
      · have hst : ¬ (TIMER1_OVF_vect s).state ≠ s.state :=
          fun hc => ha ((TIMER1_changes_state_iff s).1 hc)
        rw [hs, if_neg hst, if_pos rfl, TIMER1_idle s ha]
        show (s.no_of_overflows_T1 + 1) % 256 ≤ n + 1
        have := Nat.mod_le (s.no_of_overflows_T1 + 1) 256
        omega
    · have hf := step_frame s e he
      have hst : ¬ (step s e).state ≠ s.state := fun hc => hc hf.1
      rw [if_neg hst, if_neg he, hf.2.1]
      exact h

/-- C4, as stated, fails: after start-up the counter `butt_down` is still zero
at the eleventh tick, the first edge arrives after it, and the twelfth tick
already performs the transition. -/
theorem press_accepted_without_full_window :
    (run startup (List.replicate 11 Event.TIMER1_OVF)).butt_down = 0 ∧
    (run startup (List.replicate 11 Event.TIMER1_OVF ++ [Event.INT0])).state = 0 ∧
    (run startup (List.replicate 11 Event.TIMER1_OVF ++
      [Event.INT0, Event.TIMER1_OVF])).state = 1 := by
  refine ⟨?_, ?_, ?_⟩ <;> decide

/-- C4 (amended): in every execution from start-up, a tick that performs a
transition finds `butt_down` non-zero and is at least the twelfth tick since
the previous transition (since start-up when there was none). -/
theorem transition_needs_edge_and_twelve_ticks (evs : List Event)
    (h : (step (run startup evs) Event.TIMER1_OVF).state ≠ (run startup evs).state) :
    0 < (run startup evs).butt_down ∧
    12 ≤ ticksSinceTransition startup 0 evs + 1 := by
  have ha : accepts (run startup evs) := (TIMER1_changes_state_iff _).1 h
  have hle := overflows_le_ticksSince evs startup 0 (Nat.le_refl 0)
  refine ⟨ha.2, ?_⟩
  have h12 := ha.1
  have := Nat.mod_le ((run startup evs).no_of_overflows_T1 + 1) 256
  omega

/-- C4 (amended), for an edge that arrives right before the twelfth tick. -/
theorem transition_needs_edge_and_twelve_ticks_witness :
    0 < (run startup (List.replicate 11 Event.TIMER1_OVF ++ [Event.INT0])).butt_down ∧
    12 ≤ ticksSinceTransition startup 0
      (List.replicate 11 Event.TIMER1_OVF ++ [Event.INT0]) + 1 :=
  transition_needs_edge_and_twelve_ticks
    (List.replicate 11 Event.TIMER1_OVF ++ [Event.INT0]) (by decide)

/-! ## C5 -/

theorem TIMER1_switch_tim2 (s : State) (h0 : s.state = 0 → s.tim2_ovf_enabled = false) :
    ((TIMER1_switch s).tim2_ovf_enabled = true ↔
      (next_state s.state = 2 ∨ next_state s.state = 4)) := by
  unfold TIMER1_switch next_state
  split
  · rename_i hs
    have hs0 : s.state = 0 := hs
    simp [ADC_SELECT_CHANNEL, hs0, h0 hs0]
  · rename_i hs
    have hs0 : s.state = 1 := hs
    simp [ADC_SELECT_CHANNEL, TIM2_OVF_ENABLE, TIM2_OVF_1MS, emit, hs0]
  · rename_i hs
    have hs0 : s.state = 2 := hs
    simp [ADC_SELECT_CHANNEL, TIM2_OVF_DISABLE, hs0]
  · rename_i hs
    have hs0 : s.state = 3 := hs
    simp [TIM2_OVF_ENABLE, TIM2_OVF_1MS, emit, hs0]
  · rename_i h1 h2 h3 h4
    have e0 : s.state ≠ 0 := h1
    have e1 : s.state ≠ 1 := h2
    have e2 : s.state ≠ 2 := h3
    have e3 : s.state ≠ 3 := h4
    obtain ⟨n, hn⟩ : ∃ n, s.state = n + 4 := ⟨s.state - 4, by omega⟩
    simp [ADC_SELECT_CHANNEL, TIM2_OVF_DISABLE, hn]

theorem TIMER1_press_tim2 (s : State) (h0 : s.state = 0 → s.tim2_ovf_enabled = false) :
    ((TIMER1_press s).tim2_ovf_enabled = true ↔
      (next_state s.state = 2 ∨ next_state s.state = 4)) := by
  simp only [TIMER1_press, Clean_display_values, emit]
  exact TIMER1_switch_tim2 _ h0

/-- In every execution from start-up the interrupt of Timer/Counter2 is
enabled exactly in the modes 2 and 4. -/
theorem tim2_invariant (evs : List Event) :
    ∀ s : State, (s.tim2_ovf_enabled = true ↔ (s.state = 2 ∨ s.state = 4)) →
      ((run s evs).tim2_ovf_enabled = true ↔
        ((run s evs).state = 2 ∨ (run s evs).state = 4)) := by
  induction evs with
  | nil => intro s h; exact h
  | cons e evs ih =>
    intro s h
    have hrun : run s (e :: evs) = run (step s e) evs := rfl
    rw [hrun]
    apply ih
    by_cases he : e = Event.TIMER1_OVF
    · subst he
      have hs : step s Event.TIMER1_OVF = TIMER1_OVF_vect s := rfl
      rw [hs]
      by_cases ha : accepts s
      · rw [TIMER1_fire_state s ha, TIMER1_fire s ha]
        apply TIMER1_press_tim2
        intro h0
        have h00 : s.state = 0 := h0
        cases hb : s.tim2_ovf_enabled with
        | false => rfl
        | true =>
          have := h.1 hb
          omega
      · rw [TIMER1_idle s ha]
        exact h
    · have hf := step_frame s e he
      rw [hf.1, hf.2.2]
      exact h

/-- C5, as stated, fails: four presses after start-up reach the automatic
mode (`state = 4`, not the capacitance mode 2) with the Timer/Counter2
interrupt enabled. -/
theorem tim2_enabled_in_auto_mode :
    (run startup (presses 4)).state = 4 ∧
    (run startup (presses 4)).tim2_ovf_enabled = true ∧
    ¬ ((run startup (presses 4)).tim2_ovf_enabled = true ↔
        (run startup (presses 4)).state = 2) := by
  refine ⟨?_, ?_, ?_⟩ <;> decide

/-- C5 (amended): in every state reached from start-up, by presses and any
other interrupts, the Timer/Counter2 overflow interrupt is enabled if and only
if the mode is capacitance (2) or automatic rotation (4). -/
theorem tim2_enabled_iff_capacitance_or_auto (evs : List Event) :
    (run startup evs).tim2_ovf_enabled = true ↔
      ((run startup evs).state = 2 ∨ (run startup evs).state = 4) :=
  tim2_invariant evs startup (by decide)

/-! ## C6 -/

/-- C6, as stated, fails: a measurement left in progress (charging, two ticks
counted) when the capacitance mode was left is still in progress after the
next transition Current -> Capacitance. -/
theorem capacitance_entry_keeps_protocol_state :
    (run startup (presses 2 ++ List.replicate 4 Event.TIMER2_OVF ++ presses 4)).state = 1 ∧
    (run startup (presses 2 ++ List.replicate 4 Event.TIMER2_OVF ++ presses 5)).state = 2 ∧
    (run startup (presses 2 ++ List.replicate 4 Event.TIMER2_OVF ++
      presses 5)).state_capacit = 1 ∧
    (run startup (presses 2 ++ List.replicate 4 Event.TIMER2_OVF ++
      presses 5)).capacit_time = 2 ∧
    (run startup (presses 2 ++ List.replicate 4 Event.TIMER2_OVF ++
      presses 5)).measure_run = 1 := by
  refine ⟨?_, ?_, ?_, ?_, ?_⟩ <;> decide

/-- C6 (amended): the accepted tick that leaves the current mode enters the
capacitance mode, enables the Timer/Counter2 interrupt and leaves the three
variables of the capacitance protocol as they were. -/
theorem capacitance_entry_preserves_protocol_state (s : State)
    (h1 : s.state = 1) (ha : accepts s) :
    (TIMER1_OVF_vect s).state = 2 ∧
    (TIMER1_OVF_vect s).tim2_ovf_enabled = true ∧
    (TIMER1_OVF_vect s).state_capacit = s.state_capacit ∧
    (TIMER1_OVF_vect s).capacit_time = s.capacit_time ∧
    (TIMER1_OVF_vect s).measure_run = s.measure_run := by
  rw [TIMER1_fire s ha]
  simp [TIMER1_press, TIMER1_switch, h1, Clean_display_values, emit,
    TIM2_OVF_1MS, TIM2_OVF_ENABLE, ADC_SELECT_CHANNEL]

/-- C6 (amended), for a state in the current mode with a measurement in
progress. -/
theorem capacitance_entry_preserves_protocol_state_witness :
    (TIMER1_OVF_vect busyInCurrentMode).state = 2 ∧
    (TIMER1_OVF_vect busyInCurrentMode).tim2_ovf_enabled = true ∧
    (TIMER1_OVF_vect busyInCurrentMode).state_capacit = 1 ∧
    (TIMER1_OVF_vect busyInCurrentMode).capacit_time = 57 ∧
    (TIMER1_OVF_vect busyInCurrentMode).measure_run = 1 :=
  capacitance_entry_preserves_protocol_state busyInCurrentMode rfl (by decide)

/-! ## The capacitance protocol -/

theorem TIMER2_ticks_append (s : State) (u v : List Nat) :
    TIMER2_ticks s (u ++ v) = TIMER2_ticks (TIMER2_ticks s u) v := by
  simp [TIMER2_ticks, List.foldl_append]

/-- A tick in progress below the threshold only counts. -/
theorem TIMER2_in_progress (s : State) (raw : Nat) (hm : s.measure_run ≠ 0)
    (hr : raw ≤ 647) :
    (TIMER2_with_sample raw s).capacit_time = (s.capacit_time + 1) % 4294967296 ∧
    (TIMER2_with_sample raw s).measure_run = s.measure_run ∧
    (TIMER2_with_sample raw s).state_capacit = s.state_capacit ∧
    (TIMER2_with_sample raw s).m_data.capacitance = s.m_data.capacitance := by
  have hq : ¬ ((raw : ℚ) > 647) := by
    have : (raw : ℚ) ≤ 647 := by exact_mod_cast hr
    exact not_lt.mpr this
  simp [TIMER2_with_sample, TIMER2_OVF_vect, hm, emit, hq]

/-- A tick in progress above the threshold ends the measurement. -/
theorem TIMER2_finish (s : State) (raw : Nat) (hm : s.measure_run ≠ 0)
    (hr : 647 < raw) :
    (TIMER2_with_sample raw s).capacit_time = (s.capacit_time + 1) % 4294967296 ∧
    (TIMER2_with_sample raw s).measure_run = 0 ∧
    (TIMER2_with_sample raw s).state_capacit = (s.state_capacit + 1) % 256 ∧
    (TIMER2_with_sample raw s).m_data.capacitance =
      (((s.capacit_time + 1) % 4294967296 : ℕ) : ℚ) * 5.1 - 253.73 := by
  have hq : (raw : ℚ) > 647 := by exact_mod_cast hr
  simp [TIMER2_with_sample, TIMER2_OVF_vect, hm, emit, hq, Clean_display_capacit_time]

/-- While in progress and below the threshold the stopwatch counts the
ticks. -/
theorem TIMER2_ticks_in_progress (raws : List Nat) :
    ∀ s : State, s.measure_run ≠ 0 → (∀ x ∈ raws, x ≤ 647) →
      s.capacit_time + raws.length < 4294967296 →
      (TIMER2_ticks s raws).capacit_time = s.capacit_time + raws.length ∧
      (TIMER2_ticks s raws).measure_run = s.measure_run ∧
      (TIMER2_ticks s raws).state_capacit = s.state_capacit := by
  induction raws with
  | nil => intro s _ _ _; exact ⟨rfl, rfl, rfl⟩
  | cons r raws ih =>
    intro s hm hle hlen
    have hstep := TIMER2_in_progress s r hm (hle r (List.mem_cons_self r raws))
    have hlen2 : s.capacit_time + (raws.length + 1) < 4294967296 := by
      simpa using hlen
    have hct : (TIMER2_with_sample r s).capacit_time = s.capacit_time + 1 := by
      rw [hstep.1]
      exact Nat.mod_eq_of_lt (by omega)
    have hrec := ih (TIMER2_with_sample r s) (by rw [hstep.2.1]; exact hm)
      (fun x hx => hle x (List.mem_cons_of_mem r hx)) (by rw [hct]; omega)
    have hfold : TIMER2_ticks s (r :: raws) = TIMER2_ticks (TIMER2_with_sample r s) raws := rfl
    rw [hfold, hrec.1, hrec.2.1, hrec.2.2, hct, hstep.2.1, hstep.2.2.1]
    refine ⟨?_, rfl, rfl⟩
    simp only [List.length_cons]
    omega

/-- The discharging tick with an empty capacitor. -/
theorem TIMER2_discharged (s : State) (h0 : s.state_capacit = 0)
    (hrun : s.measure_run = 0) :
    (TIMER2_with_sample 0 s).state_capacit = 1 ∧
    (TIMER2_with_sample 0 s).measure_run = 0 := by
  simp [TIMER2_with_sample, TIMER2_OVF_vect, hrun, h0, emit]

/-- The charging tick. -/
theorem TIMER2_charging (s : State) (raw : Nat) (h1 : s.state_capacit = 1)
    (hrun : s.measure_run = 0) :
    (TIMER2_with_sample raw s).capacit_time = 0 ∧
    (TIMER2_with_sample raw s).measure_run = 1 ∧
    (TIMER2_with_sample raw s).state_capacit = 1 := by
  simp [TIMER2_with_sample, TIMER2_OVF_vect, hrun, h1, emit]

/-! ## C7 -/

/-- C7: from the discharging state with raw sample 0, the first tick moves to
charging; the charging tick (whatever the sample `r1`) zeroes the stopwatch
and sets `measure_run`; after `raws.length` further ticks at or below the
threshold 647 the stopwatch shows `raws.length` (within its 32-bit range) and
the measurement is still in progress; the next tick counts once more and
clears `measure_run` exactly when its sample exceeds 647. -/
theorem capacitance_protocol_stepping (s : State) (r1 r : Nat) (raws : List Nat)
    (h0 : s.state_capacit = 0) (hrun : s.measure_run = 0)
    (hle : ∀ x ∈ raws, x ≤ 647) (hlen : raws.length + 1 < 4294967296) :
    (TIMER2_ticks s [0]).state_capacit = 1 ∧
    (TIMER2_ticks s [0]).measure_run = 0 ∧
    (TIMER2_ticks s [0, r1]).capacit_time = 0 ∧
    (TIMER2_ticks s [0, r1]).measure_run = 1 ∧
    (TIMER2_ticks s ([0, r1] ++ raws)).capacit_time = raws.length ∧
    (TIMER2_ticks s ([0, r1] ++ raws)).measure_run = 1 ∧
    (TIMER2_ticks s ([0, r1] ++ raws ++ [r])).capacit_time = raws.length + 1 ∧
    ((TIMER2_ticks s ([0, r1] ++ raws ++ [r])).measure_run = 0 ↔ 647 < r) ∧
    (r ≤ 647 → (TIMER2_ticks s ([0, r1] ++ raws ++ [r])).measure_run = 1) := by
  have hA := TIMER2_discharged s h0 hrun
  have hB := TIMER2_charging (TIMER2_with_sample 0 s) r1 hA.1 hA.2
  have e1 : TIMER2_ticks s [0] = TIMER2_with_sample 0 s := rfl
  have e2 : TIMER2_ticks s [0, r1] = TIMER2_with_sample r1 (TIMER2_with_sample 0 s) := rfl
  have e3 : ∀ t : State, TIMER2_ticks t [r] = TIMER2_with_sample r t := fun _ => rfl
  have hne : (TIMER2_ticks s [0, r1]).measure_run ≠ 0 := by
    rw [e2, hB.2.1]
    exact Nat.one_ne_zero
  have hC := TIMER2_ticks_in_progress raws (TIMER2_ticks s [0, r1]) hne hle
    (by rw [e2, hB.1]; omega)
  rw [e2, hB.1, hB.2.1, Nat.zero_add, ← e2, ← TIMER2_ticks_append] at hC
  have hne2 : (TIMER2_ticks s ([0, r1] ++ raws)).measure_run ≠ 0 := by
    rw [hC.2.1]
    exact Nat.one_ne_zero
  refine ⟨by rw [e1]; exact hA.1, by rw [e1]; exact hA.2, by rw [e2]; exact hB.1,
    by rw [e2]; exact hB.2.1, hC.1, hC.2.1, ?_, ?_, ?_⟩
  · rw [TIMER2_ticks_append, e3]
    by_cases hr : r ≤ 647
    · rw [(TIMER2_in_progress _ r hne2 hr).1, hC.1]
      exact Nat.mod_eq_of_lt hlen
    · rw [(TIMER2_finish _ r hne2 (by omega)).1, hC.1]
      exact Nat.mod_eq_of_lt hlen
  · rw [TIMER2_ticks_append, e3]
    by_cases hr : r ≤ 647
    · rw [(TIMER2_in_progress _ r hne2 hr).2.1, hC.2.1]
      constructor
      · intro h; exact absurd h Nat.one_ne_zero
      · intro h; omega
    · rw [(TIMER2_finish _ r hne2 (by omega)).2.1]
      constructor
      · intro _; omega
      · intro _; rfl
  · intro hr
    rw [TIMER2_ticks_append, e3, (TIMER2_in_progress _ r hne2 hr).2.1, hC.2.1]

/-- C7 at start-up, with three samples below the threshold and then 648. -/
theorem capacitance_protocol_stepping_witness :
    (TIMER2_ticks startup [0]).state_capacit = 1 ∧
    (TIMER2_ticks startup [0]).measure_run = 0 ∧
    (TIMER2_ticks startup [0, 5]).capacit_time = 0 ∧
    (TIMER2_ticks startup [0, 5]).measure_run = 1 ∧
    (TIMER2_ticks startup ([0, 5] ++ [10, 300, 647])).capacit_time = 3 ∧
    (TIMER2_ticks startup ([0, 5] ++ [10, 300, 647])).measure_run = 1 ∧
    (TIMER2_ticks startup ([0, 5] ++ [10, 300, 647] ++ [648])).capacit_time = 4 ∧
    ((TIMER2_ticks startup ([0, 5] ++ [10, 300, 647] ++ [648])).measure_run = 0 ↔
      647 < 648) ∧
    (648 ≤ 647 →
      (TIMER2_ticks startup ([0, 5] ++ [10, 300, 647] ++ [648])).measure_run = 1) :=
  capacitance_protocol_stepping startup 5 648 [10, 300, 647] rfl rfl (by decide) (by decide)

/-! ## C8 -/

/-- C8: when the charging tick is followed by `raws.length` ticks at or below
the threshold and then by the first tick whose sample exceeds 647, the stored
capacitance is `n * 5.1 - 253.73` for the number `n = raws.length + 1` of
ticks in progress, the last one included (`n` within the 32-bit range of the
stopwatch). -/
theorem capacitance_formula (s : State) (raws : List Nat) (r : Nat)
    (h1 : s.state_capacit = 1) (hrun : s.measure_run = 0)
    (hle : ∀ x ∈ raws, x ≤ 647) (hr : 647 < r)
    (hlen : raws.length + 1 < 4294967296) :
    (TIMER2_ticks (TIMER2_OVF_vect s) (raws ++ [r])).m_data.capacitance =
      ((raws.length + 1 : ℕ) : ℚ) * 5.1 - 253.73 := by
  have hB : (TIMER2_OVF_vect s).capacit_time = 0 ∧ (TIMER2_OVF_vect s).measure_run = 1 := by
    simp [TIMER2_OVF_vect, hrun, h1, emit]
  have hne : (TIMER2_OVF_vect s).measure_run ≠ 0 := by
    rw [hB.2]
    exact Nat.one_ne_zero
  have hC := TIMER2_ticks_in_progress raws (TIMER2_OVF_vect s) hne hle
    (by rw [hB.1]; omega)
  rw [hB.1, hB.2, Nat.zero_add] at hC
  have hne2 : (TIMER2_ticks (TIMER2_OVF_vect s) raws).measure_run ≠ 0 := by
    rw [hC.2.1]
    exact Nat.one_ne_zero
  have e3 : ∀ t : State, TIMER2_ticks t [r] = TIMER2_with_sample r t := fun _ => rfl
  rw [TIMER2_ticks_append, e3, (TIMER2_finish _ r hne2 hr).2.2.2, hC.1,
    Nat.mod_eq_of_lt hlen]

/-- C8 for 100 ticks in progress: the stored capacitance is 256.27. -/
theorem capacitance_formula_witness :
    (TIMER2_ticks (TIMER2_OVF_vect (TIMER2_OVF_vect startup))
      (List.replicate 99 0 ++ [648])).m_data.capacitance = 256.27 := by
  have h := capacitance_formula (TIMER2_OVF_vect startup) (List.replicate 99 0) 648
    (by decide) (by decide)
    (fun x hx => by rw [List.eq_of_mem_replicate hx]; exact Nat.zero_le _)
    (by decide) (by simp)
  rw [h]
  norm_num

/-! ## The voltage branch -/

theorem ADC_value_eq (r : Nat) : ADC_value r = (r : ℚ) * 5 / 1023 := by
  unfold ADC_value REF_VOLTAGE
  norm_num
  ring

theorem ADC_value_lt_one_iff (r : Nat) : ADC_value r < 1 ↔ r ≤ 204 := by
  rw [ADC_value_eq, div_lt_one (by norm_num)]
  constructor
  · intro h
    have h2 : (r : ℚ) * 5 < ((1023 : ℕ) : ℚ) := by simpa using h
    have h3 : r * 5 < 1023 := by exact_mod_cast h2
    omega
  · intro h
    have h3 : r * 5 < 1023 := by omega
    have h2 : ((r * 5 : ℕ) : ℚ) < ((1023 : ℕ) : ℚ) := by exact_mod_cast h3
    simpa using h2

theorem ADC_voltage_millivolts (v : ℚ) (s : State) (h : v < 1) :
    ADC_voltage v s =
      { s with
        m_data := { s.m_data with voltage := v * 1000 }
        trace := s.trace ++ [Effect.oled_gotoxy 13 4,
          Effect.oled_putnum (ExtRat.fin (v * 1000)) 5 0, Effect.oled_puts " mV"] } := by
  have h' : v < 1.0 := by norm_num; exact h
  simp [ADC_voltage, h', emit]

theorem ADC_voltage_volts (v : ℚ) (s : State) (h : ¬ v < 1) :
    ADC_voltage v s =
      { s with
        m_data := { s.m_data with voltage := v }
        trace := s.trace ++ [Effect.oled_gotoxy 14 4,
          Effect.oled_putnum (ExtRat.fin v) 5 2, Effect.oled_puts " V"] } := by
  have h' : ¬ v < 1.0 := by norm_num; exact not_lt.mp h
  simp [ADC_voltage, h', emit, DEC]

/-! ## C9 -/

/-- C9: for every raw sample `r` (in particular `0 ≤ r ≤ 1023`) the handler
in the voltage mode computes `r * 5 / 1023`; this is below 1 exactly for
`r ≤ 204`; below 1 the handler writes the value times 1000 with no decimals at
column 13 followed by " mV", otherwise the value with two decimals at column
14 followed by " V". -/
theorem voltage_conversion (r : Nat) (s : State) (h0 : s.state = 0) :
    ADC_value r = (r : ℚ) * 5 / 1023 ∧
    (ADC_value r < 1 ↔ r ≤ 204) ∧
    (r ≤ 204 →
      (ADC_vect r s).trace = s.trace ++ [Effect.oled_gotoxy 13 4,
        Effect.oled_putnum (ExtRat.fin ((r : ℚ) * 5 / 1023 * 1000)) 5 0,
        Effect.oled_puts " mV", Effect.oled_display]) ∧
    (204 < r →
      (ADC_vect r s).trace = s.trace ++ [Effect.oled_gotoxy 14 4,
        Effect.oled_putnum (ExtRat.fin ((r : ℚ) * 5 / 1023)) 5 2,
        Effect.oled_puts " V", Effect.oled_display]) := by
  refine ⟨ADC_value_eq r, ADC_value_lt_one_iff r, ?_, ?_⟩
  · intro hr
    have hlt : ADC_value r < 1 := (ADC_value_lt_one_iff r).2 hr
    have hb : ADC_vect r s = emit (ADC_voltage (ADC_value r) s) Effect.oled_display := by
      simp only [ADC_vect, h0]
    rw [hb, ADC_voltage_millivolts _ s hlt, ADC_value_eq]
    simp [emit]
  · intro hr
    have hge : ¬ ADC_value r < 1 := fun h => by
      have := (ADC_value_lt_one_iff r).1 h
      omega
    have hb : ADC_vect r s = emit (ADC_voltage (ADC_value r) s) Effect.oled_display := by
      simp only [ADC_vect, h0]
    rw [hb, ADC_voltage_volts _ s hge, ADC_value_eq]
    simp [emit]

/-- C9 at start-up for the sample 204, the largest one shown in millivolts. -/
theorem voltage_conversion_witness :
    ADC_value 204 = ((204 : ℕ) : ℚ) * 5 / 1023 ∧
    (ADC_value 204 < 1 ↔ 204 ≤ 204) ∧
    (204 ≤ 204 →
      (ADC_vect 204 startup).trace = startup.trace ++ [Effect.oled_gotoxy 13 4,
        Effect.oled_putnum (ExtRat.fin (((204 : ℕ) : ℚ) * 5 / 1023 * 1000)) 5 0,
        Effect.oled_puts " mV", Effect.oled_display]) ∧
    (204 < 204 →
      (ADC_vect 204 startup).trace = startup.trace ++ [Effect.oled_gotoxy 14 4,
        Effect.oled_putnum (ExtRat.fin (((204 : ℕ) : ℚ) * 5 / 1023)) 5 2,
        Effect.oled_puts " V", Effect.oled_display]) :=
  voltage_conversion 204 startup rfl

/-! ## C10 -/

/-- C10, as stated, fails: for the raw sample 100 in the voltage mode the
handler stores 500000/1023 (millivolts), not 100 * 5 / 1023 volts. -/
theorem stored_voltage_not_in_volts :
    (ADC_vect 100 startup).m_data.voltage = 500000 / 1023 ∧
    (ADC_vect 100 startup).m_data.voltage ≠ ((100 : ℕ) : ℚ) * 5 / 1023 := by
  have hlt : ADC_value 100 < 1 := (ADC_value_lt_one_iff 100).2 (by decide)
  have hb : ADC_vect 100 startup =
      emit (ADC_voltage (ADC_value 100) startup) Effect.oled_display := rfl
  have hv : (ADC_vect 100 startup).m_data.voltage = ADC_value 100 * 1000 := by
    rw [hb, ADC_voltage_millivolts _ startup hlt]
    rfl
  rw [hv, ADC_value_eq]
  constructor <;> norm_num

/-- C10 (amended): when a sample is processed as the voltage quantity, in the
voltage mode or in the automatic mode with `internal_state = 0`, the field
`m_data.voltage` holds `r * 5 / 1023` (volts) for `r ≥ 205` and 1000 times
that (millivolts) for `r ≤ 204`. -/
theorem stored_voltage_unit_follows_branch (r : Nat) (s : State)
    (hq : s.state = 0 ∨ (4 ≤ s.state ∧ s.internal_state = 0)) :
    (ADC_vect r s).m_data.voltage =
      if r ≤ 204 then (r : ℚ) * 5 / 1023 * 1000 else (r : ℚ) * 5 / 1023 := by
  have hbranch : (ADC_vect r s).m_data.voltage = (ADC_voltage (ADC_value r) s).m_data.voltage := by
    rcases hq with h0 | ⟨h4, hi⟩
    · simp only [ADC_vect, h0, emit]
    · obtain ⟨n, hn⟩ : ∃ n, s.state = n + 4 := ⟨s.state - 4, by omega⟩
      simp only [ADC_vect, hn, ADC_auto, hi, emit, ADC_SELECT_CHANNEL]
  rw [hbranch]
  by_cases hr : r ≤ 204
  · have hlt : ADC_value r < 1 := (ADC_value_lt_one_iff r).2 hr
    rw [ADC_voltage_millivolts _ s hlt, if_pos hr, ADC_value_eq]
  · have hge : ¬ ADC_value r < 1 := fun h => hr ((ADC_value_lt_one_iff r).1 h)
    rw [ADC_voltage_volts _ s hge, if_neg hr, ADC_value_eq]

/-- C10 (amended) at start-up for the raw sample 100. -/
theorem stored_voltage_unit_follows_branch_witness :
    (ADC_vect 100 startup).m_data.voltage =
      if 100 ≤ 204 then ((100 : ℕ) : ℚ) * 5 / 1023 * 1000 else ((100 : ℕ) : ℚ) * 5 / 1023 :=
  stored_voltage_unit_follows_branch 100 startup (Or.inl rfl)

/-! ## The resistance bands -/

theorem ADC_put_R_trace (s : State) :
    (ADC_put_R s).trace = s.trace ++ [Effect.oled_gotoxy 13 7,
      Effect.oled_putnum s.m_data.resistance 5 1, Effect.oled_puts " R"] := by
  simp [ADC_put_R, emit, DEC]

theorem ADC_put_k_trace (s : State) :
    (ADC_put_k s).trace = s.trace ++ [Effect.oled_gotoxy 13 7,
      Effect.oled_putnum (s.m_data.resistance.divQ 1000) 5 2, Effect.oled_puts " k"] := by
  simp [ADC_put_k, emit, DEC]

theorem ADC_put_M_trace (s : State) :
    (ADC_put_M s).trace = s.trace ++ [Effect.oled_gotoxy 13 7,
      Effect.oled_putnum (s.m_data.resistance.divQ 1000000) 5 2, Effect.oled_puts " M"] := by
  simp [ADC_put_M, emit, DEC]

theorem ADC_put_M_auto_trace (s : State) :
    (ADC_put_M_auto s).trace = s.trace ++ [Effect.oled_gotoxy 13 7,
      Effect.oled_putnum s.m_data.resistance 5 2, Effect.oled_puts " M"] := by
  simp [ADC_put_M_auto, emit, DEC]

theorem ADC_if_R_pos (s : State) (h : s.m_data.resistance.ltQ 1000 = true) :
    ADC_if_R s = ADC_put_R s := by
  unfold ADC_if_R
  rw [if_pos h]

theorem ADC_if_R_neg (s : State) (h : s.m_data.resistance.ltQ 1000 = false) :
    ADC_if_R s = s := by
  unfold ADC_if_R
  rw [if_neg (by rw [h]; exact Bool.false_ne_true)]

theorem ADC_if_k_pos (s : State)
    (h : (s.m_data.resistance.geQ 1000 && (s.m_data.resistance.divQ 1000).ltQ 1000) = true) :
    ADC_if_k s = ADC_put_k s := by
  unfold ADC_if_k
  rw [if_pos h]

theorem ADC_if_k_neg (s : State)
    (h : (s.m_data.resistance.geQ 1000 && (s.m_data.resistance.divQ 1000).ltQ 1000) = false) :
    ADC_if_k s = s := by
  unfold ADC_if_k
  rw [if_neg (by rw [h]; exact Bool.false_ne_true)]

theorem ADC_if_M_pos (s : State) (h : (s.m_data.resistance.divQ 1000).geQ 1000 = true) :
    ADC_if_M s = ADC_put_M s := by
  unfold ADC_if_M
  rw [if_pos h]

theorem ADC_if_M_neg (s : State) (h : (s.m_data.resistance.divQ 1000).geQ 1000 = false) :
    ADC_if_M s = s := by
  unfold ADC_if_M
  rw [if_neg (by rw [h]; exact Bool.false_ne_true)]

/-- The three tests of the resistance branches for a finite value below
1000. -/
theorem tests_R (q : ℚ) (h : q < 1000) :
    (ExtRat.fin q).ltQ 1000 = true ∧
    ((ExtRat.fin q).geQ 1000 && ((ExtRat.fin q).divQ 1000).ltQ 1000) = false ∧
    ((ExtRat.fin q).divQ 1000).geQ 1000 = false := by
  have h1 : ¬ (1000 ≤ q) := not_le.mpr h
  have h2 : ¬ (1000 ≤ q / 1000) := by
    rw [not_le, div_lt_iff₀ (by norm_num)]
    linarith
  simp [ExtRat.ltQ, ExtRat.geQ, ExtRat.divQ, h, h1, h2]

/-- The three tests for a finite value from 1000 up to 1000000. -/
theorem tests_k (q : ℚ) (h1 : 1000 ≤ q) (h2 : q < 1000000) :
    (ExtRat.fin q).ltQ 1000 = false ∧
    ((ExtRat.fin q).geQ 1000 && ((ExtRat.fin q).divQ 1000).ltQ 1000) = true ∧
    ((ExtRat.fin q).divQ 1000).geQ 1000 = false := by
  have h0 : ¬ (q < 1000) := not_lt.mpr h1
  have h3 : q / 1000 < 1000 := by
    rw [div_lt_iff₀ (by norm_num)]
    linarith
  have h4 : ¬ (1000 ≤ q / 1000) := not_le.mpr h3
  simp [ExtRat.ltQ, ExtRat.geQ, ExtRat.divQ, h0, h1, h3, h4]

/-- The three tests for a finite value from 1000000 on. -/
theorem tests_M (q : ℚ) (h : 1000000 ≤ q) :
    (ExtRat.fin q).ltQ 1000 = false ∧
    ((ExtRat.fin q).geQ 1000 && ((ExtRat.fin q).divQ 1000).ltQ 1000) = false ∧
    ((ExtRat.fin q).divQ 1000).geQ 1000 = true := by
  have h0 : ¬ (q < 1000) := by
    rw [not_lt]
    linarith
  have h3 : 1000 ≤ q / 1000 := by
    rw [le_div_iff₀ (by norm_num)]
    linarith
  have h4 : ¬ (q / 1000 < 1000) := not_lt.mpr h3
  simp [ExtRat.ltQ, ExtRat.geQ, ExtRat.divQ, h0, h3, h4]

/-- The three tests for the infinite value. -/
theorem tests_inf :
    ExtRat.posInf.ltQ 1000 = false ∧
    (ExtRat.posInf.geQ 1000 && (ExtRat.posInf.divQ 1000).ltQ 1000) = false ∧
    (ExtRat.posInf.divQ 1000).geQ 1000 = true := by
  simp [ExtRat.ltQ, ExtRat.geQ, ExtRat.divQ]

theorem single_chain_of_tests_R (s : State)
    (h : s.m_data.resistance.ltQ 1000 = true ∧
      (s.m_data.resistance.geQ 1000 && (s.m_data.resistance.divQ 1000).ltQ 1000) = false ∧
      (s.m_data.resistance.divQ 1000).geQ 1000 = false) :
    ADC_single_chain s = ADC_put_R s := by
  unfold ADC_single_chain
  rw [ADC_if_R_pos s h.1, ADC_if_k_neg (ADC_put_R s) h.2.1, ADC_if_M_neg (ADC_put_R s) h.2.2]

theorem single_chain_of_tests_k (s : State)
    (h : s.m_data.resistance.ltQ 1000 = false ∧
      (s.m_data.resistance.geQ 1000 && (s.m_data.resistance.divQ 1000).ltQ 1000) = true ∧
      (s.m_data.resistance.divQ 1000).geQ 1000 = false) :
    ADC_single_chain s = ADC_put_k s := by
  unfold ADC_single_chain
  rw [ADC_if_R_neg s h.1, ADC_if_k_pos s h.2.1, ADC_if_M_neg (ADC_put_k s) h.2.2]

theorem single_chain_of_tests_M (s : State)
    (h : s.m_data.resistance.ltQ 1000 = false ∧
      (s.m_data.resistance.geQ 1000 && (s.m_data.resistance.divQ 1000).ltQ 1000) = false ∧
      (s.m_data.resistance.divQ 1000).geQ 1000 = true) :
    ADC_single_chain s = ADC_put_M s := by
  unfold ADC_single_chain
  rw [ADC_if_R_neg s h.1, ADC_if_k_neg s h.2.1, ADC_if_M_pos s h.2.2]

theorem auto_chain_of_tests_R (s : State)
    (h : s.m_data.resistance.ltQ 1000 = true ∧
      (s.m_data.resistance.geQ 1000 && (s.m_data.resistance.divQ 1000).ltQ 1000) = false ∧
      (s.m_data.resistance.divQ 1000).geQ 1000 = false) :
    ADC_auto_chain s = ADC_put_R s := by
  unfold ADC_auto_chain
  rw [if_pos h.1]

theorem auto_chain_of_tests_k (s : State)
    (h : s.m_data.resistance.ltQ 1000 = false ∧
      (s.m_data.resistance.geQ 1000 && (s.m_data.resistance.divQ 1000).ltQ 1000) = true ∧
      (s.m_data.resistance.divQ 1000).geQ 1000 = false) :
    ADC_auto_chain s = ADC_put_k s := by
  unfold ADC_auto_chain
  rw [if_neg (by rw [h.1]; exact Bool.false_ne_true), if_pos h.2.1]

theorem auto_chain_of_tests_M (s : State)
    (h : s.m_data.resistance.ltQ 1000 = false ∧
      (s.m_data.resistance.geQ 1000 && (s.m_data.resistance.divQ 1000).ltQ 1000) = false ∧
      (s.m_data.resistance.divQ 1000).geQ 1000 = true) :
    ADC_auto_chain s = ADC_put_M_auto s := by
  unfold ADC_auto_chain
  rw [if_neg (by rw [h.1]; exact Bool.false_ne_true),
    if_neg (by rw [h.2.1]; exact Bool.false_ne_true)]

/-! ## C11 -/

/-- C11: both resistance branches are their assignment followed by the band
chain; for every stored resistance each chain performs exactly one display
write (position, number, unit), and its unit is the one of the specification:
" R" below 1000, " k" from exactly 1000, " M" from exactly 1000000 (and for the
infinite value). -/
theorem resistance_banding_partition (s : State) (value : ℚ) :
    ADC_resistance_single value s = ADC_single_chain (ADC_resistance_store value s) ∧
    ADC_resistance_auto value s = ADC_auto_chain (ADC_resistance_store value s) ∧
    (∃ v p, (ADC_single_chain s).trace = s.trace ++ [Effect.oled_gotoxy 13 7,
      Effect.oled_putnum v 5 p, Effect.oled_puts (band_spec s.m_data.resistance)]) ∧
    (∃ v p, (ADC_auto_chain s).trace = s.trace ++ [Effect.oled_gotoxy 13 7,
      Effect.oled_putnum v 5 p, Effect.oled_puts (band_spec s.m_data.resistance)]) ∧
    band_spec (ExtRat.fin 999) = " R" ∧
    band_spec (ExtRat.fin 1000) = " k" ∧
    band_spec (ExtRat.fin 999999) = " k" ∧
    band_spec (ExtRat.fin 1000000) = " M" := by
  refine ⟨rfl, rfl, ?_, ?_, ?_, ?_, ?_, ?_⟩
  · cases hx : s.m_data.resistance with
    | posInf =>
      have ht := tests_inf
      rw [← hx] at ht
      rw [single_chain_of_tests_M s ht, ADC_put_M_trace]
      exact ⟨_, _, rfl⟩
    | fin q =>
      by_cases h1 : q < 1000
      · have ht := tests_R q h1
        rw [← hx] at ht
        rw [single_chain_of_tests_R s ht, ADC_put_R_trace]
        have hb : band_spec (ExtRat.fin q) = " R" := by simp [band_spec, h1]
        rw [hb]
        exact ⟨_, _, rfl⟩
      · by_cases h2 : q < 1000000
        · have ht := tests_k q (not_lt.mp h1) h2
          rw [← hx] at ht
          rw [single_chain_of_tests_k s ht, ADC_put_k_trace]
          have hb : band_spec (ExtRat.fin q) = " k" := by simp [band_spec, h1, h2]
          rw [hb]
          exact ⟨_, _, rfl⟩
        · have ht := tests_M q (not_lt.mp h2)
          rw [← hx] at ht
          rw [single_chain_of_tests_M s ht, ADC_put_M_trace]
          have hb : band_spec (ExtRat.fin q) = " M" := by simp [band_spec, h1, h2]
          rw [hb]
          exact ⟨_, _, rfl⟩
  · cases hx : s.m_data.resistance with
    | posInf =>
      have ht := tests_inf
      rw [← hx] at ht
      rw [auto_chain_of_tests_M s ht, ADC_put_M_auto_trace]
      exact ⟨_, _, rfl⟩
    | fin q =>
      by_cases h1 : q < 1000
      · have ht := tests_R q h1
        rw [← hx] at ht
        rw [auto_chain_of_tests_R s ht, ADC_put_R_trace]
        have hb : band_spec (ExtRat.fin q) = " R" := by simp [band_spec, h1]
        rw [hb]
        exact ⟨_, _, rfl⟩
      · by_cases h2 : q < 1000000
        · have ht := tests_k q (not_lt.mp h1) h2
          rw [← hx] at ht
          rw [auto_chain_of_tests_k s ht, ADC_put_k_trace]
          have hb : band_spec (ExtRat.fin q) = " k" := by simp [band_spec, h1, h2]
          rw [hb]
          exact ⟨_, _, rfl⟩
        · have ht := tests_M q (not_lt.mp h2)
          rw [← hx] at ht
          rw [auto_chain_of_tests_M s ht, ADC_put_M_auto_trace]
          have hb : band_spec (ExtRat.fin q) = " M" := by simp [band_spec, h1, h2]
          rw [hb]
          exact ⟨_, _, rfl⟩
  · norm_num [band_spec]
  · norm_num [band_spec]
  · norm_num [band_spec]
  · norm_num [band_spec]

/-! ## The computed resistance -/

/-- The resistance stored for the raw sample `r`: infinite for `r = 0`,
`1023000 / r - 1000` otherwise. -/
theorem resistance_of_sample (r : Nat) (s : State) :
    (ADC_resistance_store (ADC_value r) s).m_data.resistance =
      if r = 0 then ExtRat.posInf else ExtRat.fin (1023000 / (r : ℚ) - 1000) := by
  by_cases h0 : r = 0
  · subst h0
    simp [ADC_resistance_store, ADC_value, ExtRat.ofQuot, ExtRat.subQ]
  · have hr : (r : ℚ) ≠ 0 := by exact_mod_cast h0
    have hv : ADC_value r ≠ 0 := by
      rw [ADC_value_eq]
      exact div_ne_zero (mul_ne_zero hr (by norm_num)) (by norm_num)
    rw [if_neg h0]
    simp only [ADC_resistance_store, ExtRat.ofQuot, if_neg hv, ExtRat.subQ, REF_RESISTOR,
      REF_VOLTAGE, ADC_value_eq]
    field_simp
    ring

theorem ADC_single_chain_m_data (s : State) :
    (ADC_single_chain s).m_data = s.m_data := by
  have h1 : ∀ t : State, (ADC_if_R t).m_data = t.m_data := by
    intro t; unfold ADC_if_R; split <;> rfl
  have h2 : ∀ t : State, (ADC_if_k t).m_data = t.m_data := by
    intro t; unfold ADC_if_k; split <;> rfl
  have h3 : ∀ t : State, (ADC_if_M t).m_data = t.m_data := by
    intro t; unfold ADC_if_M; split <;> rfl
  unfold ADC_single_chain
  rw [h3, h2, h1]

theorem ADC_auto_chain_m_data (s : State) :
    (ADC_auto_chain s).m_data = s.m_data := by
  unfold ADC_auto_chain
  split
  · rfl
  · split <;> rfl

/-! ## Single-channel and automatic branches side by side -/

theorem ADC_voltage_m_data_trace (v : ℚ) (s t : State) (hm : s.m_data = t.m_data)
    (ht : s.trace = t.trace) :
    (ADC_voltage v s).m_data = (ADC_voltage v t).m_data ∧
    (ADC_voltage v s).trace = (ADC_voltage v t).trace := by
  by_cases h : v < 1
  · rw [ADC_voltage_millivolts v s h, ADC_voltage_millivolts v t h]
    simp [hm, ht]
  · rw [ADC_voltage_volts v s h, ADC_voltage_volts v t h]
    simp [hm, ht]

theorem ADC_vect_single_0 (r : Nat) (s : State) :
    ADC_vect r (singleMode 0 s) =
      emit (ADC_voltage (ADC_value r) (singleMode 0 s)) Effect.oled_display := rfl

theorem ADC_vect_single_1 (r : Nat) (s : State) :
    ADC_vect r (singleMode 1 s) =
      emit (ADC_current (ADC_value r) (singleMode 1 s)) Effect.oled_display := rfl

theorem ADC_vect_single_2 (r : Nat) (s : State) :
    ADC_vect r (singleMode 2 s) =
      emit (ADC_capacitance r (singleMode 2 s)) Effect.oled_display := rfl

theorem ADC_vect_single_3 (r : Nat) (s : State) :
    ADC_vect r (singleMode 3 s) =
      emit (ADC_single_chain (ADC_resistance_store (ADC_value r) (singleMode 3 s)))
        Effect.oled_display := rfl

theorem ADC_vect_auto_0 (r : Nat) (s : State) :
    ADC_vect r (autoMode 0 s) =
      emit (ADC_SELECT_CHANNEL 1
        { ADC_voltage (ADC_value r) (autoMode 0 s) with internal_state := 1 })
        Effect.oled_display := rfl

theorem ADC_vect_auto_1 (r : Nat) (s : State) :
    ADC_vect r (autoMode 1 s) =
      emit (ADC_SELECT_CHANNEL 2
        { ADC_current (ADC_value r) (autoMode 1 s) with internal_state := 2 })
        Effect.oled_display := rfl

theorem ADC_vect_auto_2 (r : Nat) (s : State) :
    ADC_vect r (autoMode 2 s) =
      emit (ADC_SELECT_CHANNEL 3
        { ADC_capacitance r (autoMode 2 s) with internal_state := 3 })
        Effect.oled_display := rfl

theorem ADC_vect_auto_3 (r : Nat) (s : State) :
    ADC_vect r (autoMode 3 s) =
      emit (ADC_SELECT_CHANNEL 0
        { ADC_auto_chain (ADC_resistance_store (ADC_value r) (autoMode 3 s)) with
          internal_state := 0 })
        Effect.oled_display := rfl

/-- For the raw sample 1, in the resistance sub-state, the two modes display
different numbers before the unit " M". -/
theorem megohm_traces_differ (s : State) :
    (ADC_vect 1 (autoMode 3 s)).trace ≠ (ADC_vect 1 (singleMode 3 s)).trace := by
  have hres1 := resistance_of_sample 1 (singleMode 3 s)
  have hres2 := resistance_of_sample 1 (autoMode 3 s)
  rw [if_neg Nat.one_ne_zero] at hres1 hres2
  have hM : (1000000 : ℚ) ≤ 1023000 / ((1 : ℕ) : ℚ) - 1000 := by norm_num
  have ht1 := tests_M _ hM
  have ht2 := tests_M _ hM
  rw [← hres1] at ht1
  rw [← hres2] at ht2
  rw [ADC_vect_auto_3, ADC_vect_single_3, single_chain_of_tests_M _ ht1]
  have ha : (ADC_auto_chain (ADC_resistance_store (ADC_value 1) (autoMode 3 s))).trace =
      (ADC_put_M_auto (ADC_resistance_store (ADC_value 1) (autoMode 3 s))).trace := by
    rw [auto_chain_of_tests_M _ ht2]
  show (ADC_auto_chain (ADC_resistance_store (ADC_value 1) (autoMode 3 s))).trace ++
      [Effect.oled_display] ≠
    (ADC_put_M (ADC_resistance_store (ADC_value 1) (singleMode 3 s))).trace ++
      [Effect.oled_display]
  rw [ha, ADC_put_M_auto_trace, ADC_put_M_trace, hres1, hres2]
  intro h
  have h2 := List.append_cancel_right h
  have hs : (ADC_resistance_store (ADC_value 1) (autoMode 3 s)).trace =
      (ADC_resistance_store (ADC_value 1) (singleMode 3 s)).trace := rfl
  rw [hs] at h2
  have h3 := List.append_cancel_left h2
  simp [ExtRat.divQ] at h3
  norm_num at h3

/-- For every raw sample but 1, in the resistance sub-state, the two modes
make the same display calls. -/
theorem resistance_traces_agree (s : State) (r : Nat) (hr : r ≠ 1) :
    (ADC_vect r (autoMode 3 s)).trace = (ADC_vect r (singleMode 3 s)).trace := by
  have hres1 := resistance_of_sample r (singleMode 3 s)
  have hres2 := resistance_of_sample r (autoMode 3 s)
  have hs : (ADC_resistance_store (ADC_value r) (autoMode 3 s)).trace =
      (ADC_resistance_store (ADC_value r) (singleMode 3 s)).trace := rfl
  have key : (ADC_auto_chain (ADC_resistance_store (ADC_value r) (autoMode 3 s))).trace =
      (ADC_single_chain (ADC_resistance_store (ADC_value r) (singleMode 3 s))).trace := by
    by_cases h0 : r = 0
    · rw [if_pos h0] at hres1 hres2
      have ht1 := tests_inf
      have ht2 := tests_inf
      rw [← hres1] at ht1
      rw [← hres2] at ht2
      rw [single_chain_of_tests_M _ ht1, auto_chain_of_tests_M _ ht2,
        ADC_put_M_auto_trace, ADC_put_M_trace, hres1, hres2, hs]
      rfl
    · rw [if_neg h0] at hres1 hres2
      have h2 : 2 ≤ r := by omega
      have hq : (2 : ℚ) ≤ (r : ℚ) := by exact_mod_cast h2
      have hlt : 1023000 / (r : ℚ) - 1000 < 1000000 := by
        have : 1023000 / (r : ℚ) ≤ 511500 := by
          rw [div_le_iff₀ (by linarith)]
          linarith
        linarith
      by_cases h1 : 1023000 / (r : ℚ) - 1000 < 1000
      · have ht1 := tests_R _ h1
        have ht2 := tests_R _ h1
        rw [← hres1] at ht1
        rw [← hres2] at ht2
        rw [single_chain_of_tests_R _ ht1, auto_chain_of_tests_R _ ht2,
          ADC_put_R_trace, ADC_put_R_trace, hres1, hres2, hs]
      · have ht1 := tests_k _ (not_lt.mp h1) hlt
        have ht2 := tests_k _ (not_lt.mp h1) hlt
        rw [← hres1] at ht1
        rw [← hres2] at ht2
        rw [single_chain_of_tests_k _ ht1, auto_chain_of_tests_k _ ht2,
          ADC_put_k_trace, ADC_put_k_trace, hres1, hres2, hs]
  rw [ADC_vect_auto_3, ADC_vect_single_3]
  show (ADC_auto_chain (ADC_resistance_store (ADC_value r) (autoMode 3 s))).trace ++
      [Effect.oled_display] =
    (ADC_single_chain (ADC_resistance_store (ADC_value r) (singleMode 3 s))).trace ++
      [Effect.oled_display]
  rw [key]

/-! ## C12 -/

/-- C12: for every sub-state `q ≤ 3` and raw sample `r` the automatic mode
writes the same record fields as the single-channel mode `q`, and it makes the
same display calls except for `q = 3` (resistance) and `r = 1`, the one sample
whose resistance is in the megohm band: there the single-channel branch shows
the value divided by 1000000 and the automatic branch shows the value in ohms,
both followed by " M". -/
theorem auto_repeats_single_except_megohm (s : State) (q r : Nat) (hq : q ≤ 3) :
    (ADC_vect r (autoMode q s)).m_data = (ADC_vect r (singleMode q s)).m_data ∧
    ((ADC_vect r (autoMode q s)).trace = (ADC_vect r (singleMode q s)).trace ↔
      ¬ (q = 3 ∧ r = 1)) := by
  have h4 : q = 0 ∨ q = 1 ∨ q = 2 ∨ q = 3 := by omega
  rcases h4 with rfl | rfl | rfl | rfl
  · have h := ADC_voltage_m_data_trace (ADC_value r) (autoMode 0 s) (singleMode 0 s) rfl rfl
    rw [ADC_vect_auto_0, ADC_vect_single_0]
    refine ⟨h.1, ?_⟩
    constructor
    · intro _ hc
      omega
    · intro _
      show (ADC_voltage (ADC_value r) (autoMode 0 s)).trace ++ [Effect.oled_display] =
        (ADC_voltage (ADC_value r) (singleMode 0 s)).trace ++ [Effect.oled_display]
      rw [h.2]
  · rw [ADC_vect_auto_1, ADC_vect_single_1]
    refine ⟨rfl, ?_⟩
    constructor
    · intro _ hc
      omega
    · intro _
      rfl
  · rw [ADC_vect_auto_2, ADC_vect_single_2]
    refine ⟨rfl, ?_⟩
    constructor
    · intro _ hc
      omega
    · intro _
      rfl
  · constructor
    · rw [ADC_vect_auto_3, ADC_vect_single_3]
      show (ADC_auto_chain (ADC_resistance_store (ADC_value r) (autoMode 3 s))).m_data =
        (ADC_single_chain (ADC_resistance_store (ADC_value r) (singleMode 3 s))).m_data
      rw [ADC_auto_chain_m_data, ADC_single_chain_m_data]
      rfl
    · constructor
      · intro h hc
        have h1 : r = 1 := hc.2
        subst h1
        exact megohm_traces_differ s h
      · intro h
        apply resistance_traces_agree
        intro h1
        exact h ⟨rfl, h1⟩

/-- C12 at the failing input: after start-up, resistance sub-state, raw sample
1. The single-channel mode displays 511/500 (1.022) and the automatic mode
1022000, both with the unit " M". -/
theorem auto_repeats_single_except_megohm_witness :
    (ADC_vect 1 (autoMode 3 startup)).m_data = (ADC_vect 1 (singleMode 3 startup)).m_data ∧
    (ADC_vect 1 (autoMode 3 startup)).trace ≠ (ADC_vect 1 (singleMode 3 startup)).trace ∧
    (ADC_vect 1 (singleMode 3 startup)).trace =
      [Effect.oled_gotoxy 13 7, Effect.oled_putnum (ExtRat.fin (511 / 500)) 5 2,
        Effect.oled_puts " M", Effect.oled_display] ∧
    (ADC_vect 1 (autoMode 3 startup)).trace =
      [Effect.oled_gotoxy 13 7, Effect.oled_putnum (ExtRat.fin 1022000) 5 2,
        Effect.oled_puts " M", Effect.oled_display] := by
  have h := auto_repeats_single_except_megohm startup 3 1 (by decide)
  have hres1 := resistance_of_sample 1 (singleMode 3 startup)
  have hres2 := resistance_of_sample 1 (autoMode 3 startup)
  rw [if_neg Nat.one_ne_zero] at hres1 hres2
  have hM : (1000000 : ℚ) ≤ 1023000 / ((1 : ℕ) : ℚ) - 1000 := by norm_num
  have ht1 := tests_M _ hM
  have ht2 := tests_M _ hM
  rw [← hres1] at ht1
  rw [← hres2] at ht2
  refine ⟨h.1, fun hc => (h.2.1 hc) ⟨rfl, rfl⟩, ?_, ?_⟩
  · rw [ADC_vect_single_3, single_chain_of_tests_M _ ht1]
    show (ADC_put_M (ADC_resistance_store (ADC_value 1) (singleMode 3 startup))).trace ++
      [Effect.oled_display] = _
    rw [ADC_put_M_trace, hres1]
    simp [ExtRat.divQ, ADC_resistance_store, singleMode, startup]
    norm_num
  · rw [ADC_vect_auto_3]
    show (ADC_auto_chain (ADC_resistance_store (ADC_value 1) (autoMode 3 startup))).trace ++
      [Effect.oled_display] = _
    rw [auto_chain_of_tests_M _ ht2, ADC_put_M_auto_trace, hres2]
    simp [ADC_resistance_store, autoMode, startup]
    norm_num

/-! ## The automatic rotation -/

theorem ADC_voltage_frame2 (v : ℚ) (s : State) :
    (ADC_voltage v s).internal_state = s.internal_state ∧
    (ADC_voltage v s).adc_channel = s.adc_channel := by
  unfold ADC_voltage
  split <;> exact ⟨rfl, rfl⟩

theorem ADC_single_chain_frame2 (s : State) :
    (ADC_single_chain s).internal_state = s.internal_state ∧
    (ADC_single_chain s).adc_channel = s.adc_channel := by
  have h1 : ∀ t : State, (ADC_if_R t).internal_state = t.internal_state ∧
      (ADC_if_R t).adc_channel = t.adc_channel := by
    intro t; unfold ADC_if_R; split <;> exact ⟨rfl, rfl⟩
  have h2 : ∀ t : State, (ADC_if_k t).internal_state = t.internal_state ∧
      (ADC_if_k t).adc_channel = t.adc_channel := by
    intro t; unfold ADC_if_k; split <;> exact ⟨rfl, rfl⟩
  have h3 : ∀ t : State, (ADC_if_M t).internal_state = t.internal_state ∧
      (ADC_if_M t).adc_channel = t.adc_channel := by
    intro t; unfold ADC_if_M; split <;> exact ⟨rfl, rfl⟩
  unfold ADC_single_chain
  rw [(h3 _).1, (h3 _).2, (h2 _).1, (h2 _).2, (h1 _).1, (h1 _).2]
  exact ⟨rfl, rfl⟩

/-- In a single-channel mode the conversion handler leaves the sub-state and
the selected channel alone. -/
theorem ADC_vect_single_frame (r : Nat) (s : State) (h : s.state ≤ 3) :
    (ADC_vect r s).internal_state = s.internal_state ∧
    (ADC_vect r s).adc_channel = s.adc_channel := by
  have h4 : s.state = 0 ∨ s.state = 1 ∨ s.state = 2 ∨ s.state = 3 := by omega
  unfold ADC_vect
  rcases h4 with h0 | h0 | h0 | h0
  · simp only [h0, emit]
    exact ADC_voltage_frame2 _ s
  · simp only [h0, emit]
    exact ⟨rfl, rfl⟩
  · simp only [h0, emit]
    exact ⟨rfl, rfl⟩
  · simp only [h0, emit]
    exact ADC_single_chain_frame2 _

/-- In the automatic mode the conversion handler advances the sub-state and
selects the channel of the new sub-state. -/
theorem ADC_vect_auto_step (r : Nat) (s : State) (h : 4 ≤ s.state) :
    (ADC_vect r s).internal_state = next_internal s.internal_state ∧
    (ADC_vect r s).adc_channel = next_internal s.internal_state ∧
    (ADC_vect r s).state = s.state := by
  refine ⟨?_, ?_, (ADC_vect_frame r s).1⟩
  · obtain ⟨n, hn⟩ : ∃ n, s.state = n + 4 := ⟨s.state - 4, by omega⟩
    unfold ADC_vect
    simp only [hn, emit]
    unfold ADC_auto next_internal
    split <;> rfl
  · obtain ⟨n, hn⟩ : ∃ n, s.state = n + 4 := ⟨s.state - 4, by omega⟩
    unfold ADC_vect
    simp only [hn, emit]
    unfold ADC_auto next_internal
    split <;> rfl

theorem next_internal_of_le (q : Nat) (h : q ≤ 3) : next_internal q = (q + 1) % 4 := by
  have h4 : q = 0 ∨ q = 1 ∨ q = 2 ∨ q = 3 := by omega
  rcases h4 with rfl | rfl | rfl | rfl <;> rfl

theorem next_internal_le (q : Nat) : next_internal q ≤ 3 := by
  unfold next_internal
  split <;> omega

/-- Four conversions in the automatic mode, sub-state by sub-state. -/
theorem auto_four_steps (s : State) (r0 r1 r2 r3 : Nat) (h4 : 4 ≤ s.state)
    (hq : s.internal_state ≤ 3) :
    ((ADC_vect r0 s).internal_state = (s.internal_state + 1) % 4 ∧
      (ADC_vect r0 s).adc_channel = (s.internal_state + 1) % 4) ∧
    ((ADC_vect r1 (ADC_vect r0 s)).internal_state = (s.internal_state + 2) % 4 ∧
      (ADC_vect r1 (ADC_vect r0 s)).adc_channel = (s.internal_state + 2) % 4) ∧
    ((ADC_vect r2 (ADC_vect r1 (ADC_vect r0 s))).internal_state =
        (s.internal_state + 3) % 4 ∧
      (ADC_vect r2 (ADC_vect r1 (ADC_vect r0 s))).adc_channel =
        (s.internal_state + 3) % 4) ∧
    ((ADC_vect r3 (ADC_vect r2 (ADC_vect r1 (ADC_vect r0 s)))).internal_state =
        s.internal_state ∧
      (ADC_vect r3 (ADC_vect r2 (ADC_vect r1 (ADC_vect r0 s)))).adc_channel =
        s.internal_state) := by
  have a0 := ADC_vect_auto_step r0 s h4
  have a1 := ADC_vect_auto_step r1 (ADC_vect r0 s) (by rw [a0.2.2]; exact h4)
  have a2 := ADC_vect_auto_step r2 (ADC_vect r1 (ADC_vect r0 s))
    (by rw [a1.2.2, a0.2.2]; exact h4)
  have a3 := ADC_vect_auto_step r3 (ADC_vect r2 (ADC_vect r1 (ADC_vect r0 s)))
    (by rw [a2.2.2, a1.2.2, a0.2.2]; exact h4)
  have e0 : (ADC_vect r0 s).internal_state = (s.internal_state + 1) % 4 := by
    rw [a0.1, next_internal_of_le _ hq]
  have e1 : (ADC_vect r1 (ADC_vect r0 s)).internal_state = (s.internal_state + 2) % 4 := by
    rw [a1.1, e0, next_internal_of_le _ (by omega)]
    omega
  have e2 : (ADC_vect r2 (ADC_vect r1 (ADC_vect r0 s))).internal_state =
      (s.internal_state + 3) % 4 := by
    rw [a2.1, e1, next_internal_of_le _ (by omega)]
    omega
  have e3 : (ADC_vect r3 (ADC_vect r2 (ADC_vect r1 (ADC_vect r0 s)))).internal_state =
      s.internal_state := by
    rw [a3.1, e2, next_internal_of_le _ (by omega)]
    omega
  refine ⟨⟨e0, ?_⟩, ⟨e1, ?_⟩, ⟨e2, ?_⟩, ⟨e3, ?_⟩⟩
  · rw [a0.2.1, ← a0.1, e0]
  · rw [a1.2.1, ← a1.1, e1]
  · rw [a2.2.1, ← a2.1, e2]
  · rw [a3.2.1, ← a3.1, e3]

/-! ## C13 -/

/-- C13, as stated, fails: four presses after start-up enter the automatic
mode with channel 3 still selected, and the first four conversions are taken
from the channels 3, 1, 2, 3 for the sub-states 0, 1, 2, 3: channel 0 is not
sampled and the sample processed as voltage comes from channel 3. -/
theorem first_auto_cycle_misses_channel_0 :
    (run startup (presses 4)).state = 4 ∧
    conversions (run startup (presses 4)) [300, 300, 300, 300] =
      [(3, 0), (1, 1), (2, 2), (3, 3)] := by
  have hs : (run startup (presses 4)).state = 4 := by decide
  have hc : (run startup (presses 4)).adc_channel = 3 := by decide
  have hi : (run startup (presses 4)).internal_state = 0 := by decide
  have h := auto_four_steps (run startup (presses 4)) 300 300 300 300
    (by rw [hs]) (by rw [hi]; decide)
  refine ⟨hs, ?_⟩
  simp only [conversions, hc, h.1.1, h.1.2, h.2.1.1, h.2.1.2, h.2.2.1.1, h.2.2.1.2, hi]

/-- C13 (amended): in the automatic mode every conversion leaves the selected
channel equal to the new sub-state; and a cycle of four conversions that
starts with the selected channel equal to the sub-state `q ≤ 3` takes the
sample of every sub-state from the channel of the same number, the four
channels being a rearrangement of 0, 1, 2, 3. -/
theorem auto_cycle_covers_channels_when_aligned (s : State) (r0 r1 r2 r3 : Nat)
    (h4 : 4 ≤ s.state) (hq : s.internal_state ≤ 3)
    (ha : s.adc_channel = s.internal_state) :
    (∀ (t : State) (r : Nat), 4 ≤ t.state →
      (ADC_vect r t).adc_channel = (ADC_vect r t).internal_state) ∧
    conversions s [r0, r1, r2, r3] =
      [(s.internal_state, s.internal_state),
       ((s.internal_state + 1) % 4, (s.internal_state + 1) % 4),
       ((s.internal_state + 2) % 4, (s.internal_state + 2) % 4),
       ((s.internal_state + 3) % 4, (s.internal_state + 3) % 4)] ∧
    List.Perm ((conversions s [r0, r1, r2, r3]).map Prod.fst) [0, 1, 2, 3] := by
  have hstep : ∀ (t : State) (r : Nat), 4 ≤ t.state →
      (ADC_vect r t).adc_channel = (ADC_vect r t).internal_state := by
    intro t r ht
    have a := ADC_vect_auto_step r t ht
    rw [a.1, a.2.1]
  have h := auto_four_steps s r0 r1 r2 r3 h4 hq
  have hc : conversions s [r0, r1, r2, r3] =
      [(s.internal_state, s.internal_state),
       ((s.internal_state + 1) % 4, (s.internal_state + 1) % 4),
       ((s.internal_state + 2) % 4, (s.internal_state + 2) % 4),
       ((s.internal_state + 3) % 4, (s.internal_state + 3) % 4)] := by
    simp only [conversions, ha, h.1.1, h.1.2, h.2.1.1, h.2.1.2, h.2.2.1.1, h.2.2.1.2]
  refine ⟨hstep, hc, ?_⟩
  rw [hc]
  have h4 : s.internal_state = 0 ∨ s.internal_state = 1 ∨ s.internal_state = 2 ∨
      s.internal_state = 3 := by omega
  rcases h4 with h0 | h0 | h0 | h0 <;> rw [h0] <;> decide

/-- C13 (amended), for a cycle that starts in the automatic mode with channel
2 selected and sub-state 2. -/
theorem auto_cycle_covers_channels_when_aligned_witness :
    conversions (ADC_SELECT_CHANNEL 2 (autoMode 2 startup)) [300, 300, 300, 300] =
      [(2, 2), (3, 3), (0, 0), (1, 1)] :=
  (auto_cycle_covers_channels_when_aligned
    (ADC_SELECT_CHANNEL 2 (autoMode 2 startup)) 300 300 300 300
    (by decide) (by decide) (by decide)).2.1

/-! ## C14 -/

/-- C14: in the automatic mode, from every sub-state `q ≤ 3`, the conversion
handler steps to `q + 1`, `q + 2`, `q + 3` modulo 4 and with the fourth
conversion back to `q`, never being at `q` in between; in a single-channel
mode it changes neither the sub-state nor the selected channel. -/
theorem substate_cycle_period_four (s : State) (r0 r1 r2 r3 : Nat) (h4 : 4 ≤ s.state)
    (hq : s.internal_state ≤ 3) :
    (ADC_run s [r0]).internal_state = (s.internal_state + 1) % 4 ∧
    (ADC_run s [r0, r1]).internal_state = (s.internal_state + 2) % 4 ∧
    (ADC_run s [r0, r1, r2]).internal_state = (s.internal_state + 3) % 4 ∧
    (ADC_run s [r0, r1, r2, r3]).internal_state = s.internal_state ∧
    (ADC_run s [r0]).internal_state ≠ s.internal_state ∧
    (ADC_run s [r0, r1]).internal_state ≠ s.internal_state ∧
    (ADC_run s [r0, r1, r2]).internal_state ≠ s.internal_state ∧
    (∀ (t : State) (r : Nat), t.state ≤ 3 →
      (ADC_vect r t).internal_state = t.internal_state ∧
      (ADC_vect r t).adc_channel = t.adc_channel) := by
  have h := auto_four_steps s r0 r1 r2 r3 h4 hq
  have e1 : ADC_run s [r0] = ADC_vect r0 s := rfl
  have e2 : ADC_run s [r0, r1] = ADC_vect r1 (ADC_vect r0 s) := rfl
  have e3 : ADC_run s [r0, r1, r2] = ADC_vect r2 (ADC_vect r1 (ADC_vect r0 s)) := rfl
  have e4 : ADC_run s [r0, r1, r2, r3] =
      ADC_vect r3 (ADC_vect r2 (ADC_vect r1 (ADC_vect r0 s))) := rfl
  rw [e1, e2, e3, e4, h.1.1, h.2.1.1, h.2.2.1.1, h.2.2.2.1]
  refine ⟨rfl, rfl, rfl, rfl, by omega, by omega, by omega, ?_⟩
  intro t r ht
  exact ADC_vect_single_frame r t ht

/-- C14 in the automatic mode reached by four presses after start-up. -/
theorem substate_cycle_period_four_witness :
    (ADC_run (run startup (presses 4)) [300, 300, 300, 300]).internal_state =
      (run startup (presses 4)).internal_state :=
  (substate_cycle_period_four (run startup (presses 4)) 300 300 300 300
    (by decide) (by decide)).2.2.2.1

/-! ## C15 -/

theorem ADC_voltage_capacitance (v : ℚ) (s : State) :
    (ADC_voltage v s).m_data.capacitance = s.m_data.capacitance := by
  unfold ADC_voltage
  split <;> rfl

theorem ADC_auto_capacitance (adc : Nat) (v : ℚ) (s : State) :
    (ADC_auto adc v s).m_data.capacitance = s.m_data.capacitance := by
  unfold ADC_auto
  split
  · exact ADC_voltage_capacitance v s
  · rfl
  · rfl
  · show (ADC_auto_chain (ADC_resistance_store v s)).m_data.capacitance = _
    rw [ADC_auto_chain_m_data]
    rfl

theorem ADC_vect_capacitance (adc : Nat) (s : State) :
    (ADC_vect adc s).m_data.capacitance = s.m_data.capacitance := by
  unfold ADC_vect
  simp only [emit]
  split
  · exact ADC_voltage_capacitance _ s
  · rfl
  · rfl
  · show (ADC_single_chain (ADC_resistance_store _ s)).m_data.capacitance = _
    rw [ADC_single_chain_m_data]
    rfl
  · exact ADC_auto_capacitance adc _ s

theorem TIMER2_m_data (s : State) :
    (TIMER2_OVF_vect s).m_data.voltage = s.m_data.voltage ∧
    (TIMER2_OVF_vect s).m_data.current = s.m_data.current ∧
    (TIMER2_OVF_vect s).m_data.resistance = s.m_data.resistance ∧
    (TIMER2_OVF_vect s).m_data.capacit_value = s.m_data.capacit_value := by
  unfold TIMER2_OVF_vect
  split
  · simp only []
    split <;> exact ⟨rfl, rfl, rfl, rfl⟩
  · split
    · simp only []
      split <;> exact ⟨rfl, rfl, rfl, rfl⟩
    · exact ⟨rfl, rfl, rfl, rfl⟩
    · exact ⟨rfl, rfl, rfl, rfl⟩

theorem TIMER1_switch_m_data (s : State) : (TIMER1_switch s).m_data = s.m_data := by
  unfold TIMER1_switch
  split <;> rfl

theorem TIMER1_m_data (s : State) : (TIMER1_OVF_vect s).m_data = s.m_data := by
  by_cases ha : accepts s
  · rw [TIMER1_fire s ha]
    simp [TIMER1_press, Clean_display_values, emit, TIMER1_switch_m_data]
  · rw [TIMER1_idle s ha]

theorem TIMER0_m_data (s : State) : (TIMER0_OVF_vect s).m_data = s.m_data := by
  unfold TIMER0_OVF_vect
  simp only []
  split <;> rfl

/-- C15: the conversion handler never changes `m_data.capacitance`; the
capacitance handler never changes `voltage`, `current`, `resistance` or
`capacit_value`; the debounce handler, the scheduler and the button handler
leave the whole record unchanged. -/
theorem single_writer_frame :
    (∀ (s : State) (adc : Nat),
      (ADC_vect adc s).m_data.capacitance = s.m_data.capacitance) ∧
    (∀ s : State,
      (TIMER2_OVF_vect s).m_data.voltage = s.m_data.voltage ∧
      (TIMER2_OVF_vect s).m_data.current = s.m_data.current ∧
      (TIMER2_OVF_vect s).m_data.resistance = s.m_data.resistance ∧
      (TIMER2_OVF_vect s).m_data.capacit_value = s.m_data.capacit_value) ∧
    (∀ s : State, (TIMER1_OVF_vect s).m_data = s.m_data) ∧
    (∀ s : State, (TIMER0_OVF_vect s).m_data = s.m_data) ∧
    (∀ s : State, (INT0_vect s).m_data = s.m_data) :=
  ⟨fun s adc => ADC_vect_capacitance adc s, TIMER2_m_data, TIMER1_m_data, TIMER0_m_data,
    fun _ => rfl⟩

/-! ## The acquisition scheduler -/

theorem starts_emit (s : State) (e : Effect) (h : e ≠ Effect.adc_start_conv) :
    starts (emit s e) = starts s := by
  simp [starts, emit, List.count_append, List.count_singleton, h]

theorem ADC_voltage_starts (v : ℚ) (s : State) :
    starts (ADC_voltage v s) = starts s ∧
    (ADC_voltage v s).no_of_overflows_T0 = s.no_of_overflows_T0 := by
  by_cases h : v < 1
  · rw [ADC_voltage_millivolts v s h]
    simp [starts, List.count_append]
  · rw [ADC_voltage_volts v s h]
    simp [starts, List.count_append]

theorem ADC_put_starts (s : State) :
    (starts (ADC_put_R s) = starts s ∧
      (ADC_put_R s).no_of_overflows_T0 = s.no_of_overflows_T0) ∧
    (starts (ADC_put_k s) = starts s ∧
      (ADC_put_k s).no_of_overflows_T0 = s.no_of_overflows_T0) ∧
    (starts (ADC_put_M s) = starts s ∧
      (ADC_put_M s).no_of_overflows_T0 = s.no_of_overflows_T0) ∧
    (starts (ADC_put_M_auto s) = starts s ∧
      (ADC_put_M_auto s).no_of_overflows_T0 = s.no_of_overflows_T0) := by
  refine ⟨⟨?_, rfl⟩, ⟨?_, rfl⟩, ⟨?_, rfl⟩, ⟨?_, rfl⟩⟩
  · simp [starts, ADC_put_R_trace, List.count_append]
  · simp [starts, ADC_put_k_trace, List.count_append]
  · simp [starts, ADC_put_M_trace, List.count_append]
  · simp [starts, ADC_put_M_auto_trace, List.count_append]

theorem ADC_single_chain_starts (s : State) :
    starts (ADC_single_chain s) = starts s ∧
    (ADC_single_chain s).no_of_overflows_T0 = s.no_of_overflows_T0 := by
  have h1 : ∀ t : State, starts (ADC_if_R t) = starts t ∧
      (ADC_if_R t).no_of_overflows_T0 = t.no_of_overflows_T0 := by
    intro t
    unfold ADC_if_R
    split
    · exact (ADC_put_starts t).1
    · exact ⟨rfl, rfl⟩
  have h2 : ∀ t : State, starts (ADC_if_k t) = starts t ∧
      (ADC_if_k t).no_of_overflows_T0 = t.no_of_overflows_T0 := by
    intro t
    unfold ADC_if_k
    split
    · exact (ADC_put_starts t).2.1
    · exact ⟨rfl, rfl⟩
  have h3 : ∀ t : State, starts (ADC_if_M t) = starts t ∧
      (ADC_if_M t).no_of_overflows_T0 = t.no_of_overflows_T0 := by
    intro t
    unfold ADC_if_M
    split
    · exact (ADC_put_starts t).2.2.1
    · exact ⟨rfl, rfl⟩
  unfold ADC_single_chain
  rw [(h3 _).1, (h3 _).2, (h2 _).1, (h2 _).2, (h1 _).1, (h1 _).2]
  exact ⟨rfl, rfl⟩

theorem ADC_auto_chain_starts (s : State) :
    starts (ADC_auto_chain s) = starts s ∧
    (ADC_auto_chain s).no_of_overflows_T0 = s.no_of_overflows_T0 := by
  unfold ADC_auto_chain
  split
  · exact (ADC_put_starts s).1
  · split
    · exact (ADC_put_starts s).2.1
    · exact (ADC_put_starts s).2.2.2

theorem ADC_current_starts (v : ℚ) (s : State) :
    starts (ADC_current v s) = starts s ∧
    (ADC_current v s).no_of_overflows_T0 = s.no_of_overflows_T0 := by
  refine ⟨?_, rfl⟩
  simp [starts, ADC_current, emit, List.count_append]

theorem ADC_capacitance_starts (adc : Nat) (s : State) :
    starts (ADC_capacitance adc s) = starts s ∧
    (ADC_capacitance adc s).no_of_overflows_T0 = s.no_of_overflows_T0 := by
  refine ⟨?_, rfl⟩
  simp [starts, ADC_capacitance, emit, List.count_append]

theorem ADC_auto_starts (adc : Nat) (v : ℚ) (s : State) :
    starts (ADC_auto adc v s) = starts s ∧
    (ADC_auto adc v s).no_of_overflows_T0 = s.no_of_overflows_T0 := by
  unfold ADC_auto
  split
  · exact ADC_voltage_starts v s
  · exact ADC_current_starts v s
  · exact ADC_capacitance_starts adc s
  · exact ADC_auto_chain_starts (ADC_resistance_store v s)

theorem ADC_vect_starts (adc : Nat) (s : State) :
    starts (ADC_vect adc s) = starts s ∧
    (ADC_vect adc s).no_of_overflows_T0 = s.no_of_overflows_T0 := by
  have hd : ∀ t : State, starts (emit t Effect.oled_display) = starts t :=
    fun t => starts_emit t _ (by decide)
  unfold ADC_vect
  simp only []
  rw [hd]
  split
  · exact ADC_voltage_starts _ s
  · exact ADC_current_starts _ s
  · exact ADC_capacitance_starts adc s
  · exact ADC_single_chain_starts (ADC_resistance_store _ s)
  · exact ADC_auto_starts adc _ s

theorem TIMER1_switch_starts (s : State) :
    starts (TIMER1_switch s) = starts s ∧
    (TIMER1_switch s).no_of_overflows_T0 = s.no_of_overflows_T0 := by
  unfold TIMER1_switch
  split
  · exact ⟨rfl, rfl⟩
  · refine ⟨?_, rfl⟩
    simp [starts, TIM2_OVF_1MS, TIM2_OVF_ENABLE, ADC_SELECT_CHANNEL, emit, List.count_append]
  · exact ⟨rfl, rfl⟩
  · refine ⟨?_, rfl⟩
    simp [starts, TIM2_OVF_1MS, TIM2_OVF_ENABLE, emit, List.count_append]
  · exact ⟨rfl, rfl⟩

theorem TIMER1_starts (s : State) :
    starts (TIMER1_OVF_vect s) = starts s ∧
    (TIMER1_OVF_vect s).no_of_overflows_T0 = s.no_of_overflows_T0 := by
  by_cases ha : accepts s
  · rw [TIMER1_fire s ha]
    have h := TIMER1_switch_starts
      { emit { s with no_of_overflows_T1 := (s.no_of_overflows_T1 + 1) % 256 } Effect.cli with
        no_of_overflows_T1 := 0
        butt_down := 0 }
    constructor
    · have e : starts (TIMER1_press
          { s with no_of_overflows_T1 := (s.no_of_overflows_T1 + 1) % 256 }) =
          starts (TIMER1_switch
            { emit { s with no_of_overflows_T1 := (s.no_of_overflows_T1 + 1) % 256 }
                Effect.cli with
              no_of_overflows_T1 := 0
              butt_down := 0 }) := by
        simp [starts, TIMER1_press, Clean_display_values, emit, List.count_append]
      rw [e, h.1]
      simp [starts, emit, List.count_append]
    · have e : (TIMER1_press
          { s with no_of_overflows_T1 := (s.no_of_overflows_T1 + 1) % 256 }).no_of_overflows_T0 =
          (TIMER1_switch
            { emit { s with no_of_overflows_T1 := (s.no_of_overflows_T1 + 1) % 256 }
                Effect.cli with
              no_of_overflows_T1 := 0
              butt_down := 0 }).no_of_overflows_T0 := by
        simp [TIMER1_press, Clean_display_values, emit]
      rw [e, h.2]
      rfl
  · rw [TIMER1_idle s ha]
    exact ⟨rfl, rfl⟩

theorem TIMER2_starts (s : State) :
    starts (TIMER2_OVF_vect s) = starts s ∧
    (TIMER2_OVF_vect s).no_of_overflows_T0 = s.no_of_overflows_T0 := by
  unfold TIMER2_OVF_vect
  split
  · simp only []
    split
    · refine ⟨?_, rfl⟩
      simp [starts, Clean_display_capacit_time, emit, List.count_append]
    · refine ⟨?_, rfl⟩
      simp [starts, emit, List.count_append]
  · split
    · simp only []
      split
      · refine ⟨?_, rfl⟩
        simp [starts, emit, List.count_append]
      · refine ⟨?_, rfl⟩
        simp [starts, emit, List.count_append]
    · refine ⟨?_, rfl⟩
      simp [starts, emit, List.count_append]
    · exact ⟨rfl, rfl⟩

/-- No handler but the scheduler issues a start-conversion request or touches
the scheduler's counter. -/
theorem step_starts (s : State) (e : Event) (he : e ≠ Event.TIMER0_OVF) :
    starts (step s e) = starts s ∧
    (step s e).no_of_overflows_T0 = s.no_of_overflows_T0 := by
  cases e with
  | TIMER0_OVF => exact absurd rfl he
  | TIMER1_OVF => exact TIMER1_starts s
  | TIMER2_OVF =>
    simp only [step]
    split
    · exact TIMER2_starts s
    · exact ⟨rfl, rfl⟩
  | INT0 => exact ⟨rfl, rfl⟩
  | ADC sample => exact ADC_vect_starts sample s

/-- The scheduler below its third overflow only counts. -/
theorem TIMER0_count (s : State) (h : s.no_of_overflows_T0 < 2) :
    starts (TIMER0_OVF_vect s) = starts s ∧
    (TIMER0_OVF_vect s).no_of_overflows_T0 = s.no_of_overflows_T0 + 1 := by
  have h1 : (s.no_of_overflows_T0 + 1) % 256 = s.no_of_overflows_T0 + 1 :=
    Nat.mod_eq_of_lt (by omega)
  have h2 : ¬ (s.no_of_overflows_T0 + 1 ≥ 3) := by omega
  simp [TIMER0_OVF_vect, h1, h2, starts]

/-- The third overflow issues one request and clears the counter. -/
theorem TIMER0_third (s : State) (h : s.no_of_overflows_T0 = 2) :
    starts (TIMER0_OVF_vect s) = starts s + 1 ∧
    (TIMER0_OVF_vect s).no_of_overflows_T0 = 0 := by
  simp [TIMER0_OVF_vect, h, ADC_START_CONV, starts, emit, List.count_append]

/-- Requests issued and overflows counted add up to the overflows served. -/
theorem pacing_invariant (evs : List Event) :
    ∀ (s : State) (n : Nat), s.no_of_overflows_T0 < 3 →
      starts s * 3 + s.no_of_overflows_T0 = n →
      (run s evs).no_of_overflows_T0 < 3 ∧
      starts (run s evs) * 3 + (run s evs).no_of_overflows_T0 =
        n + evs.count Event.TIMER0_OVF := by
  induction evs with
  | nil => intro s n h1 h2; exact ⟨h1, by simpa using h2⟩
  | cons e evs ih =>
    intro s n h1 h2
    have hrun : run s (e :: evs) = run (step s e) evs := rfl
    rw [hrun]
    by_cases he : e = Event.TIMER0_OVF
    · subst he
      have hs : step s Event.TIMER0_OVF = TIMER0_OVF_vect s := rfl
      rw [hs, List.count_cons_self]
      by_cases h3 : s.no_of_overflows_T0 < 2
      · have hc := TIMER0_count s h3
        have := ih (TIMER0_OVF_vect s) (n + 1) (by rw [hc.2]; omega)
          (by rw [hc.1, hc.2]; omega)
        refine ⟨this.1, ?_⟩
        rw [this.2]
        omega
      · have hc := TIMER0_third s (by omega)
        have := ih (TIMER0_OVF_vect s) (n + 1) (by rw [hc.2]; omega)
          (by rw [hc.1, hc.2]; omega)
        refine ⟨this.1, ?_⟩
        rw [this.2]
        omega
    · have hf := step_starts s e he
      have := ih (step s e) n (by rw [hf.2]; exact h1) (by rw [hf.1, hf.2]; exact h2)
      refine ⟨this.1, ?_⟩
      rw [this.2, List.count_cons_of_ne (Ne.symm he)]

/-! ## C16 -/

/-- C16: in every execution from start-up, whatever other interrupts are
served in between, the number of start-conversion requests is the number of
Timer/Counter0 overflows divided by 3 (rounded down); and the scheduler
commutes with any change of `state`, of the selected channel and of `m_data`:
it neither reads nor writes them. -/
theorem acquisition_pacing (evs : List Event) (s : State) (a c : Nat) (m : Measure_data) :
    starts (run startup evs) = evs.count Event.TIMER0_OVF / 3 ∧
    TIMER0_OVF_vect { s with state := a, adc_channel := c, m_data := m } =
      { TIMER0_OVF_vect s with state := a, adc_channel := c, m_data := m } := by
  constructor
  · have h := pacing_invariant evs startup 0 (by decide) (by decide)
    omega
  · unfold TIMER0_OVF_vect
    simp only []
    split <;> rfl

/-! ## C17 -/

/-- Spacing of the transitions of an execution in which `n` overflows of
Timer/Counter1 have been served and the last transition was at overflow
`last`. -/
theorem spacing_invariant (evs : List Event) :
    ∀ (s : State) (n last : Nat), s.no_of_overflows_T1 + last ≤ n →
      List.Chain (fun a b => a + 12 ≤ b) last (transitionTicks s n evs) := by
  induction evs with
  | nil => intro s n last _; exact List.Chain.nil
  | cons e evs ih =>
    intro s n last h
    by_cases he : e = Event.TIMER1_OVF
    · subst he
      have hs : step s Event.TIMER1_OVF = TIMER1_OVF_vect s := rfl
      by_cases ha : accepts s
      · have hst : (step s Event.TIMER1_OVF).state ≠ s.state := by
          rw [hs]
          exact (TIMER1_changes_state_iff s).2 ha
        simp only [transitionTicks, if_pos hst, if_true]
        have h12 := ha.1
        have hle := Nat.mod_le (s.no_of_overflows_T1 + 1) 256
        refine List.Chain.cons (by omega) ?_
        apply ih
        rw [hs, TIMER1_fire_overflows s ha]
        omega
      · have hst : ¬ (step s Event.TIMER1_OVF).state ≠ s.state := by
          rw [hs]
          exact fun hc => ha ((TIMER1_changes_state_iff s).1 hc)
        simp only [transitionTicks, if_neg hst, if_true]
        apply ih
        rw [hs, TIMER1_idle s ha]
        show (s.no_of_overflows_T1 + 1) % 256 + last ≤ n + 1
        have hle := Nat.mod_le (s.no_of_overflows_T1 + 1) 256
        omega
    · have hf := step_frame s e he
      have hst : ¬ (step s e).state ≠ s.state := fun hc => hc hf.1
      simp only [transitionTicks, if_neg hst, if_neg he]
      apply ih
      rw [hf.2.1]
      exact h

/-- C17: in every execution from start-up, with the 8-bit tick counter
wrapping modulo 256 and whatever edges and other interrupts are served in
between, the first transition is at the twelfth tick or later and every
further transition is at least twelve ticks after the one before. -/
theorem transitions_twelve_ticks_apart (evs : List Event) :
    List.Chain (fun a b => a + 12 ≤ b) 0 (transitionTicks startup 0 evs) :=
  spacing_invariant evs startup 0 0 (by decide)

/-- The transitions of two presses after start-up are at the ticks 12 and
24. -/
theorem transitionTicks_two_presses :
    transitionTicks startup 0 (presses 2) = [12, 24] := by
  decide

/-! ## C18 -/

theorem TIMER1_switch_channel (s : State) :
    (TIMER1_switch s).state ≤ 4 ∧
    ((TIMER1_switch s).state ≤ 3 → (TIMER1_switch s).adc_channel = (TIMER1_switch s).state) := by
  unfold TIMER1_switch
  split
  · rename_i hs
    have hs0 : s.state = 0 := hs
    simp [ADC_SELECT_CHANNEL, hs0]
  · rename_i hs
    have hs0 : s.state = 1 := hs
    simp [ADC_SELECT_CHANNEL, TIM2_OVF_ENABLE, TIM2_OVF_1MS, emit, hs0]
  · rename_i hs
    have hs0 : s.state = 2 := hs
    simp [ADC_SELECT_CHANNEL, TIM2_OVF_DISABLE, hs0]
  · rename_i hs
    have hs0 : s.state = 3 := hs
    simp [TIM2_OVF_ENABLE, TIM2_OVF_1MS, emit, hs0]
  · simp [ADC_SELECT_CHANNEL, TIM2_OVF_DISABLE]

theorem TIMER1_press_channel (s : State) :
    (TIMER1_press s).state ≤ 4 ∧
    ((TIMER1_press s).state ≤ 3 → (TIMER1_press s).adc_channel = (TIMER1_press s).state) := by
  simp only [TIMER1_press, Clean_display_values, emit]
  exact TIMER1_switch_channel _

theorem TIMER0_channel (s : State) : (TIMER0_OVF_vect s).adc_channel = s.adc_channel := by
  unfold TIMER0_OVF_vect
  simp only []
  split <;> rfl

theorem TIMER2_channel (s : State) : (TIMER2_OVF_vect s).adc_channel = s.adc_channel := by
  unfold TIMER2_OVF_vect
  split
  · simp only []
    split <;> rfl
  · split
    · simp only []
      split <;> rfl
    · rfl
    · rfl

/-- Mode and channel agree in the single-channel modes, along every
execution. -/
theorem channel_invariant (evs : List Event) :
    ∀ s : State, s.state ≤ 4 → (s.state ≤ 3 → s.adc_channel = s.state) →
      (run s evs).state ≤ 4 ∧
      ((run s evs).state ≤ 3 → (run s evs).adc_channel = (run s evs).state) := by
  induction evs with
  | nil => intro s h1 h2; exact ⟨h1, h2⟩
  | cons e evs ih =>
    intro s h1 h2
    have hrun : run s (e :: evs) = run (step s e) evs := rfl
    rw [hrun]
    cases e with
    | TIMER0_OVF =>
      have hf := TIMER0_frame s
      have hs : step s Event.TIMER0_OVF = TIMER0_OVF_vect s := rfl
      apply ih
      · rw [hs, hf.1]; exact h1
      · rw [hs, hf.1, TIMER0_channel]; exact h2
    | TIMER1_OVF =>
      have hs : step s Event.TIMER1_OVF = TIMER1_OVF_vect s := rfl
      rw [hs]
      by_cases ha : accepts s
      · rw [TIMER1_fire s ha]
        exact ih _ (TIMER1_press_channel _).1 (TIMER1_press_channel _).2
      · rw [TIMER1_idle s ha]
        exact ih _ h1 h2
    | TIMER2_OVF =>
      by_cases hen : s.tim2_ovf_enabled = true
      · have hs : step s Event.TIMER2_OVF = TIMER2_OVF_vect s := by
          simp [step, hen]
        have hf := TIMER2_frame s
        apply ih
        · rw [hs, hf.1]; exact h1
        · rw [hs, hf.1, TIMER2_channel]; exact h2
      · have hs : step s Event.TIMER2_OVF = s := by
          simp [step, hen]
        rw [hs]
        exact ih s h1 h2
    | INT0 => exact ih _ h1 h2
    | ADC sample =>
      have hs : step s (Event.ADC sample) = ADC_vect sample s := rfl
      have hf := ADC_vect_frame sample s
      apply ih
      · rw [hs, hf.1]; exact h1
      · rw [hs, hf.1]
        intro h3
        rw [(ADC_vect_single_frame sample s h3).2]
        exact h2 h3

/-- C18: in every state reached from start-up (channel 0 selected), `state`
is at most 4, and whenever it is one of 0, 1, 2, 3 the selected channel has
the same number. -/
theorem mode_and_channel_agree (evs : List Event) :
    (run startup evs).state ≤ 4 ∧
    ((run startup evs).state ≤ 3 →
      (run startup evs).adc_channel = (run startup evs).state) :=
  channel_invariant evs startup (by decide) (by decide)

/-! ## C19 -/

theorem resistance_value_facts (r : Nat) (h1 : 1 ≤ r) (h2 : r ≤ 1023) :
    0 ≤ 1023000 / (r : ℚ) - 1000 ∧
    (1023000 / (r : ℚ) - 1000 = 0 ↔ r = 1023) ∧
    1023000 / (r : ℚ) - 1000 ≤ 1022000 ∧
    (1000000 ≤ 1023000 / (r : ℚ) - 1000 ↔ r = 1) ∧
    (1023000 / (r : ℚ) - 1000 < 1000 ↔ 512 ≤ r) := by
  have hr1 : (1 : ℚ) ≤ (r : ℚ) := by exact_mod_cast h1
  have hr2 : (r : ℚ) ≤ 1023 := by exact_mod_cast h2
  have hr : (0 : ℚ) < (r : ℚ) := by linarith
  refine ⟨?_, ?_, ?_, ?_, ?_⟩
  · rw [sub_nonneg, le_div_iff₀ hr]
    linarith
  · constructor
    · intro h
      have h3 : 1023000 / (r : ℚ) = 1000 := by linarith
      rw [div_eq_iff hr.ne'] at h3
      have h4 : (r : ℚ) = 1023 := by linarith
      exact_mod_cast h4
    · intro h
      subst h
      norm_num
  · have h3 : 1023000 / (r : ℚ) ≤ 1023000 := by
      rw [div_le_iff₀ hr]
      linarith
    linarith
  · constructor
    · intro h
      have h3 : 1001000 ≤ 1023000 / (r : ℚ) := by linarith
      rw [le_div_iff₀ hr] at h3
      have h4 : (r : ℚ) < 2 := by linarith
      have h5 : r < 2 := by exact_mod_cast h4
      omega
    · intro h
      subst h
      norm_num
  · constructor
    · intro h
      have h3 : 1023000 / (r : ℚ) < 2000 := by linarith
      rw [div_lt_iff₀ hr] at h3
      have h4 : (511 : ℚ) < (r : ℚ) := by linarith
      have h5 : 511 < r := by exact_mod_cast h4
      omega
    · intro h
      have h4 : (512 : ℚ) ≤ (r : ℚ) := by exact_mod_cast h
      have h3 : 1023000 / (r : ℚ) < 2000 := by
        rw [div_lt_iff₀ hr]
        linarith
      linarith

/-- C19: for every raw sample `1 ≤ r ≤ 1023` the resistance expression of the
handler equals `1023000 / r - 1000` and that is what the handler stores; the
value is never negative, zero exactly for `r = 1023`, at most 1022000, at
least 1000000 exactly for `r = 1` and below 1000 exactly for `r ≥ 512`; both
resistance branches write the megohm band for `r = 1`, the kilohm band for
`2 ≤ r ≤ 511` and the ohm band for `r ≥ 512`. -/
theorem resistance_range (r : Nat) (s : State) (h1 : 1 ≤ r) (h2 : r ≤ 1023) :
    (REF_RESISTOR * REF_VOLTAGE) / ADC_value r - REF_RESISTOR = 1023000 / (r : ℚ) - 1000 ∧
    (ADC_resistance_store (ADC_value r) s).m_data.resistance =
      ExtRat.fin (1023000 / (r : ℚ) - 1000) ∧
    0 ≤ 1023000 / (r : ℚ) - 1000 ∧
    (1023000 / (r : ℚ) - 1000 = 0 ↔ r = 1023) ∧
    1023000 / (r : ℚ) - 1000 ≤ 1022000 ∧
    (1000000 ≤ 1023000 / (r : ℚ) - 1000 ↔ r = 1) ∧
    (1023000 / (r : ℚ) - 1000 < 1000 ↔ 512 ≤ r) ∧
    (r = 1 →
      ADC_resistance_single (ADC_value r) s =
        ADC_put_M (ADC_resistance_store (ADC_value r) s) ∧
      ADC_resistance_auto (ADC_value r) s =
        ADC_put_M_auto (ADC_resistance_store (ADC_value r) s)) ∧
    (2 ≤ r → r ≤ 511 →
      ADC_resistance_single (ADC_value r) s =
        ADC_put_k (ADC_resistance_store (ADC_value r) s) ∧
      ADC_resistance_auto (ADC_value r) s =
        ADC_put_k (ADC_resistance_store (ADC_value r) s)) ∧
    (512 ≤ r →
      ADC_resistance_single (ADC_value r) s =
        ADC_put_R (ADC_resistance_store (ADC_value r) s) ∧
      ADC_resistance_auto (ADC_value r) s =
        ADC_put_R (ADC_resistance_store (ADC_value r) s)) := by
  have hf := resistance_value_facts r h1 h2
  have hres := resistance_of_sample r s
  rw [if_neg (by omega)] at hres
  have hr : (r : ℚ) ≠ 0 := by
    have : (1 : ℚ) ≤ (r : ℚ) := by exact_mod_cast h1
    linarith
  have e1 : ADC_resistance_single (ADC_value r) s =
      ADC_single_chain (ADC_resistance_store (ADC_value r) s) := rfl
  have e2 : ADC_resistance_auto (ADC_value r) s =
      ADC_auto_chain (ADC_resistance_store (ADC_value r) s) := rfl
  refine ⟨?_, hres, hf.1, hf.2.1, hf.2.2.1, hf.2.2.2.1, hf.2.2.2.2, ?_, ?_, ?_⟩
  · rw [ADC_value_eq]
    simp only [REF_RESISTOR, REF_VOLTAGE]
    field_simp
    ring
  · intro h
    have ht := tests_M _ (hf.2.2.2.1.2 h)
    rw [← hres] at ht
    rw [e1, e2, single_chain_of_tests_M _ ht, auto_chain_of_tests_M _ ht]
    exact ⟨rfl, rfl⟩
  · intro ha hb
    have hk1 : (1000 : ℚ) ≤ 1023000 / (r : ℚ) - 1000 := by
      rw [← not_lt]
      intro hc
      have := hf.2.2.2.2.1 hc
      omega
    have hk2 : 1023000 / (r : ℚ) - 1000 < 1000000 := by
      rw [← not_le]
      intro hc
      have := hf.2.2.2.1.1 hc
      omega
    have ht := tests_k _ hk1 hk2
    rw [← hres] at ht
    rw [e1, e2, single_chain_of_tests_k _ ht, auto_chain_of_tests_k _ ht]
    exact ⟨rfl, rfl⟩
  · intro h
    have ht := tests_R _ (hf.2.2.2.2.2 h)
    rw [← hres] at ht
    rw [e1, e2, single_chain_of_tests_R _ ht, auto_chain_of_tests_R _ ht]
    exact ⟨rfl, rfl⟩

/-- C19 at start-up for the raw sample 511, the largest one in the kilohm
band. -/
theorem resistance_range_witness :
    (ADC_resistance_store (ADC_value 511) startup).m_data.resistance =
      ExtRat.fin (1023000 / ((511 : ℕ) : ℚ) - 1000) ∧
    ADC_resistance_single (ADC_value 511) startup =
      ADC_put_k (ADC_resistance_store (ADC_value 511) startup) :=
  ⟨(resistance_range 511 startup (by decide) (by decide)).2.1,
    ((resistance_range 511 startup (by decide) (by decide)).2.2.2.2.2.2.2.2.1
      (by decide) (by decide)).1⟩

/-! ## C20 -/

theorem stored_value_negative_iff (n : Nat) :
    (n : ℚ) * 5.1 - 253.73 < 0 ↔ n ≤ 49 := by
  constructor
  · intro h
    have h1 : (n : ℚ) * 510 < 25373 := by
      norm_num at h
      linarith
    have h2 : ((n * 510 : ℕ) : ℚ) < ((25373 : ℕ) : ℚ) := by
      push_cast
      exact h1
    have h3 : n * 510 < 25373 := by exact_mod_cast h2
    omega
  · intro h
    have h1 : (n : ℚ) ≤ 49 := by exact_mod_cast h
    norm_num
    linarith

/-- C20: the tick that ends a measurement stores `capacit_time * 5.1 - 253.73`
for the value of the stopwatch after its increment; the stored value is
negative exactly when that value is at most 49; a measurement that ends on its
first tick in progress stores -248.63; and the stopwatch is at least 1 unless
its 32 bits have wrapped. -/
theorem capacitance_sign (s : State) (raw : Nat) (hm : s.measure_run ≠ 0)
    (hr : 647 < raw) :
    (TIMER2_with_sample raw s).m_data.capacitance =
      ((TIMER2_with_sample raw s).capacit_time : ℚ) * 5.1 - 253.73 ∧
    ((TIMER2_with_sample raw s).m_data.capacitance < 0 ↔
      (TIMER2_with_sample raw s).capacit_time ≤ 49) ∧
    (s.capacit_time = 0 → (TIMER2_with_sample raw s).m_data.capacitance = -248.63) ∧
    (s.capacit_time + 1 < 4294967296 → 1 ≤ (TIMER2_with_sample raw s).capacit_time) := by
  have hf := TIMER2_finish s raw hm hr
  have hc : (TIMER2_with_sample raw s).m_data.capacitance =
      ((TIMER2_with_sample raw s).capacit_time : ℚ) * 5.1 - 253.73 := by
    rw [hf.2.2.2, hf.1]
  refine ⟨hc, ?_, ?_, ?_⟩
  · rw [hc]
    exact stored_value_negative_iff _
  · intro h0
    rw [hf.2.2.2, h0]
    norm_num
  · intro hlt
    rw [hf.1, Nat.mod_eq_of_lt hlt]
    omega

/-- C20 for a measurement that ends on its first tick in progress, right
after the charging tick. -/
theorem capacitance_sign_witness :
    (TIMER2_with_sample 648 (TIMER2_ticks startup [0, 0])).m_data.capacitance = -248.63 ∧
    ((TIMER2_with_sample 648 (TIMER2_ticks startup [0, 0])).m_data.capacitance < 0 ↔
      (TIMER2_with_sample 648 (TIMER2_ticks startup [0, 0])).capacit_time ≤ 49) :=
  ⟨(capacitance_sign (TIMER2_ticks startup [0, 0]) 648 (by decide) (by decide)).2.2.1
      (by decide),
    (capacitance_sign (TIMER2_ticks startup [0, 0]) 648 (by decide) (by decide)).2.1⟩

end Firmware
